import Mathlib

/-!
# Concurrent rocket simulation: event queue and system cycle

A shallow embedding of `event.c`, `system.c` and `resource.c`.

Modelling conventions.

* Pointers are `Option Nat`: `none` is `NULL`, `some a` is the address `a`.
  The heap maps every address to a value (`World`), so every non-null pointer
  is valid, as the program assumes.  A pointer argument whose target the
  function reads or writes directly (`EventQueue *queue`, `Event *event`) is
  passed as `Option` of the pointed-to value and the new value is returned.
* The linked list of `EventNode`s is the `List Event` reached from `head`.
* `int` arithmetic is 32-bit two's complement: the result of every addition,
  subtraction and multiplication is passed through `wrapInt`; division is
  `Int.tdiv`, which rounds towards zero as C does.
* `malloc` is assumed to succeed (its failure path calls `exit`).
* A function is run alone, with every semaphore it waits on available, so each
  `sem_wait` / `sem_post` pair brackets its critical section and has no effect
  on the data; `usleep` only spends time.  Neither is part of the state; the
  order in which a run makes these calls is given by the `_acts` functions.
* `malloc` returns an address given as a parameter (`fresh`), or a block of
  slots for an array.
* Dereferencing `NULL` has no result: functions that may do so return `Option`.
-/

namespace RocketSim

/-! ## `defs.h` -/

/-- Modelled from the spec: the outcome codes `STATUS_OK`, `STATUS_EMPTY`,
`STATUS_INSUFFICIENT` and `STATUS_CAPACITY` of `defs.h`, which is not among the
sources.  The spec treats them as a closed set of distinct codes. -/
inductive Status where
  | STATUS_OK
  | STATUS_EMPTY
  | STATUS_INSUFFICIENT
  | STATUS_CAPACITY
deriving DecidableEq, Repr

/-- Modelled from the spec: the operating modes of a system (`defs.h` is not
among the sources): STANDARD, SLOW, FAST or TERMINATE. -/
inductive SystemStatus where
  | STANDARD
  | SLOW
  | FAST
  | TERMINATE
deriving DecidableEq, Repr

open Status SystemStatus

/-- The numeric constants of `defs.h` that the code uses but whose values are
not among the sources; they are parameters of the model. -/
structure Defs where
  PRIORITY_HIGH : Int
  PRIORITY_LOW : Int
  SYSTEM_WAIT_TIME : Int
deriving DecidableEq, Repr

/-- The value an `int` holds after a result `x` is stored in it (32 bits, two's
complement). -/
def wrapInt (x : Int) : Int := (x + 2147483648) % 4294967296 - 2147483648

/-- The values of type `int`. -/
def IsInt (x : Int) : Prop := -2147483648 ≤ x ∧ x ≤ 2147483647

instance (x : Int) : Decidable (IsInt x) :=
  inferInstanceAs (Decidable (-2147483648 ≤ x ∧ x ≤ 2147483647))

/-- Struct `Resource` (the semaphore is not part of the data). -/
structure Resource where
  name : String
  amount : Int
  max_capacity : Int
deriving DecidableEq, Repr

/-- Struct `ResourceAmount`. -/
structure ResourceAmount where
  resource : Option Nat
  amount : Int
deriving DecidableEq, Repr

/-- Struct `Event`. -/
structure Event where
  system : Option Nat
  resource : Option Nat
  status : Status
  priority : Int
  amount : Int
deriving DecidableEq, Repr

/-- Struct `EventQueue`: the nodes reached from `head`, in list order. -/
structure EventQueue where
  head : List Event
deriving DecidableEq, Repr

/-- Struct `System`. -/
structure System where
  name : String
  consumed : ResourceAmount
  produced : ResourceAmount
  processing_time : Int
  status : SystemStatus
  amount_stored : Int
  event_queue : Option Nat
deriving DecidableEq, Repr

/-- The heap: the systems, resources and event queues by address. -/
structure World where
  systems : Nat → System
  resources : Nat → Resource
  queues : Nat → EventQueue

/-! ## `event.c` -/

/-- Function `event_init`. -/
def event_init (system : Option Nat) (resource : Option Nat) (status : Status)
    (priority : Int) (amount : Int) : Event :=
  { system := system, resource := resource, status := status,
    priority := priority, amount := amount }

/-- Function `event_queue_init`. -/
def event_queue_init (queue : Option EventQueue) : Option EventQueue :=
  match queue with
  | none => none
  | some _ => some { head := [] }

/-- Function `event_queue_clean`: every node is freed and `head` is reset. -/
def event_queue_clean (queue : Option EventQueue) : Option EventQueue :=
  match queue with
  | none => none
  | some _ => some { head := [] }

/-- The insertion walk of `event_queue_push` (event.c 92-99): `current` advances
while the node it points at has `priority >= event->priority`; the new node is
linked in where the walk stops. -/
def insert_node : List Event → Event → List Event
  | [], event => [event]
  | node :: next, event =>
    if node.priority ≥ event.priority then node :: insert_node next event
    else event :: node :: next

/-- Function `event_queue_push`. -/
def event_queue_push (queue : Option EventQueue) (event : Option Event) :
    Option EventQueue :=
  match queue, event with
  | some q, some e => some { head := insert_node q.head e }
  | _, _ => queue

/-- Function `event_queue_pop`: the return value, the queue and the caller's
`*event` after the call. -/
def event_queue_pop (queue : Option EventQueue) (event : Option Event) :
    Int × Option EventQueue × Option Event :=
  match queue, event with
  | some q, some _ =>
    match q.head with
    | [] => (0, queue, event)
    | node_to_remove :: next => (1, some { head := next }, some node_to_remove)
  | _, _ => (0, queue, event)

/-! ## `system.c` -/

/-- The call `event_queue_push(system->event_queue, &event)` on the heap: the
queue at the address is replaced by what `event_queue_push` leaves there. -/
def push_at (w : World) (queue : Option Nat) (event : Event) : World :=
  match queue, event_queue_push (queue.map w.queues) (some event) with
  | some a, some q => { w with queues := Function.update w.queues a q }
  | _, _ => w

/-- Function `system_simulate_process_time`: the value of
`adjusted_processing_time`, the delay in milliseconds it sleeps for. -/
def system_simulate_process_time (system : System) : Int :=
  match system.status with
  | SLOW => wrapInt (system.processing_time * 2)
  | FAST => Int.tdiv system.processing_time 2
  | _ => system.processing_time

/-- Function `system_convert`, for the system at address `sp`.  On success the
source also calls `system_simulate_process_time`, which sleeps and changes no
data. -/
def system_convert (w : World) (sp : Nat) : Status × World :=
  let system := w.systems sp
  let amount_consumed := system.consumed.amount
  let r : Status × World :=
    match system.consumed.resource with
    | none => (STATUS_OK, w)
    | some cp =>
      let consumed_resource := w.resources cp
      if consumed_resource.amount ≥ amount_consumed then
        (STATUS_OK,
          { w with
            resources := Function.update w.resources cp
              { consumed_resource with
                amount := wrapInt (consumed_resource.amount - amount_consumed) } })
      else
        (if consumed_resource.amount = 0 then STATUS_EMPTY else STATUS_INSUFFICIENT, w)
  if r.1 = STATUS_OK then
    let system := r.2.systems sp
    if system.produced.resource ≠ none then
      (r.1,
        { r.2 with
          systems := Function.update r.2.systems sp
            { system with
              amount_stored := wrapInt (system.amount_stored + system.produced.amount) } })
    else
      (r.1,
        { r.2 with
          systems := Function.update r.2.systems sp { system with amount_stored := 0 } })
  else r

/-- Function `system_store_resources`, for the system at address `sp`. -/
def system_store_resources (w : World) (sp : Nat) : Status × World :=
  let system := w.systems sp
  match system.produced.resource with
  | none =>
    (STATUS_OK,
      { w with systems := Function.update w.systems sp { system with amount_stored := 0 } })
  | some pp =>
    if system.amount_stored = 0 then
      (STATUS_OK,
        { w with systems := Function.update w.systems sp { system with amount_stored := 0 } })
    else
      let produced_resource := w.resources pp
      let available_space :=
        wrapInt (produced_resource.max_capacity - produced_resource.amount)
      let w1 : World :=
        if available_space ≥ system.amount_stored then
          { w with
            resources := Function.update w.resources pp
              { produced_resource with
                amount := wrapInt (produced_resource.amount + system.amount_stored) }
            systems := Function.update w.systems sp { system with amount_stored := 0 } }
        else if available_space > 0 then
          { w with
            resources := Function.update w.resources pp
              { produced_resource with
                amount := wrapInt (produced_resource.amount + available_space) }
            systems := Function.update w.systems sp
              { system with
                amount_stored := wrapInt (system.amount_stored - available_space) } }
        else w
      if (w1.systems sp).amount_stored = 0 then (STATUS_OK, w1)
      else (STATUS_CAPACITY, w1)

/-- The first phase of `system_run` (system.c 126-134); `none` when
`system->consumed.resource->amount` is read through a null pointer.  The
`usleep` after the push changes no data. -/
def system_run_convert (d : Defs) (w : World) (sp : Nat) : Option World :=
  if (w.systems sp).amount_stored = 0 then
    let r := system_convert w sp
    if r.1 ≠ STATUS_OK then
      match (r.2.systems sp).consumed.resource with
      | none => none
      | some cp =>
        let event := event_init (some sp) (some cp) r.1 d.PRIORITY_HIGH
          (r.2.resources cp).amount
        some (push_at r.2 (r.2.systems sp).event_queue event)
    else some r.2
  else some w

/-- The second phase of `system_run` (system.c 136-144); `none` when
`system->produced.resource->amount` is read through a null pointer.  The
`usleep` after the push changes no data. -/
def system_run_store (d : Defs) (w : World) (sp : Nat) : Option World :=
  if (w.systems sp).amount_stored > 0 then
    let r := system_store_resources w sp
    if r.1 ≠ STATUS_OK then
      match (r.2.systems sp).produced.resource with
      | none => none
      | some pp =>
        let event := event_init (some sp) (some pp) r.1 d.PRIORITY_LOW
          (r.2.resources pp).amount
        some (push_at r.2 (r.2.systems sp).event_queue event)
    else some r.2
  else some w

/-- Function `system_run`, for the system at address `sp`; `none` when it
dereferences a null resource pointer. -/
def system_run (d : Defs) (w : World) (sp : Nat) : Option World :=
  match system_run_convert d w sp with
  | none => none
  | some w1 => system_run_store d w1 sp

/-! ## Call sequences -/

/-- One call made on a queue: `event_queue_push(queue, event)` or
`event_queue_pop(queue, event)`, with the content of `*event` (or `none` for a
null `event`). -/
inductive QueueOp where
  | push (event : Option Event)
  | pop (event : Option Event)
deriving DecidableEq, Repr

/-- The queue after one call. -/
def apply_op (queue : Option EventQueue) : QueueOp → Option EventQueue
  | QueueOp.push event => event_queue_push queue event
  | QueueOp.pop event => (event_queue_pop queue event).2.1

/-- The queue after a sequence of calls, first call first. -/
def run_ops (queue : Option EventQueue) (ops : List QueueOp) : Option EventQueue :=
  ops.foldl apply_op queue

/-- The queue after pushing the events of a list, first event first. -/
def push_all (queue : Option EventQueue) (events : List Event) : Option EventQueue :=
  events.foldl (fun q e => event_queue_push q (some e)) queue

/-- The outcome of `n` successive calls `event_queue_pop(queue, event)` on the
same two pointers: for each call, its return value and `*event` after it. -/
def pop_n : Nat → Option EventQueue → Option Event → List (Int × Option Event)
  | 0, _, _ => []
  | n + 1, queue, event =>
    let r := event_queue_pop queue event
    (r.1, r.2.2) :: pop_n n r.2.1 r.2.2

/-- A list of events is in non-increasing priority order from its head. -/
def sorted_desc (l : List Event) : Prop :=
  l.Pairwise (fun a b => a.priority ≥ b.priority)

instance (l : List Event) : Decidable (sorted_desc l) :=
  inferInstanceAs (Decidable (l.Pairwise (fun (a b : Event) => a.priority ≥ b.priority)))

/-- An event of the given priority raised by the system at address `tag`; the
tag tells events of equal priority apart. -/
def tagged_event (priority : Int) (tag : Nat) : Event :=
  event_init (some tag) none STATUS_OK priority 0

/-- The events of a list that have priority `p`, in list order. -/
def with_priority (p : Int) (l : List Event) : List Event :=
  l.filter (fun e => decide (e.priority = p))

/-! ## The scenario of `load_data` (main.c) -/

/-- The resources created by `load_data`: Fuel at address 0, Oxygen at 1,
Energy at 2, Distance at 3 (and at every other address). -/
def scenario_resources : Nat → Resource
  | 0 => { name := "Fuel", amount := 1000, max_capacity := 1000 }
  | 1 => { name := "Oxygen", amount := 20, max_capacity := 50 }
  | 2 => { name := "Energy", amount := 30, max_capacity := 50 }
  | _ => { name := "Distance", amount := 0, max_capacity := 5000 }

/-- The systems created by `load_data`, as `system_create` leaves them:
Propulsion at address 0, Life Support at 1, Crew at 2, Generator at 3 (and at
every other address); all push to the queue at address 0. -/
def scenario_systems : Nat → System
  | 0 => { name := "Propulsion", consumed := { resource := some 0, amount := 5 },
           produced := { resource := some 3, amount := 25 }, processing_time := 50,
           status := STANDARD, amount_stored := 0, event_queue := some 0 }
  | 1 => { name := "Life Support", consumed := { resource := some 2, amount := 7 },
           produced := { resource := some 1, amount := 4 }, processing_time := 10,
           status := STANDARD, amount_stored := 0, event_queue := some 0 }
  | 2 => { name := "Crew", consumed := { resource := some 1, amount := 1 },
           produced := { resource := none, amount := 0 }, processing_time := 2,
           status := STANDARD, amount_stored := 0, event_queue := some 0 }
  | _ => { name := "Generator", consumed := { resource := some 0, amount := 5 },
           produced := { resource := some 2, amount := 10 }, processing_time := 20,
           status := STANDARD, amount_stored := 0, event_queue := some 0 }

/-- The heap after `load_data`, with every event queue empty. -/
def scenario : World :=
  { systems := scenario_systems, resources := scenario_resources,
    queues := fun _ => { head := [] } }

/-- The scenario with the amount of the resource at address `rp` set to
`amount`. -/
def with_amount (w : World) (rp : Nat) (amount : Int) : World :=
  { w with resources := Function.update w.resources rp { w.resources rp with amount := amount } }

/-- The scenario with `amount_stored` of the system at address `sp` set to
`stored`. -/
def with_stored (w : World) (sp : Nat) (stored : Int) : World :=
  { w with systems := Function.update w.systems sp { w.systems sp with amount_stored := stored } }

/-- The constants used where the values of `defs.h` are needed for an example. -/
def example_defs : Defs :=
  { PRIORITY_HIGH := 3, PRIORITY_LOW := 1, SYSTEM_WAIT_TIME := 10 }

/-- Every resource of the heap satisfies `0 <= amount <= max_capacity`. -/
def resources_in_bounds (w : World) : Prop :=
  ∀ p : Nat, 0 ≤ (w.resources p).amount ∧ (w.resources p).amount ≤ (w.resources p).max_capacity

/-- Every `max_capacity` of the heap is a value of type `int`. -/
def capacities_are_int (w : World) : Prop :=
  ∀ p : Nat, IsInt (w.resources p).max_capacity

/-- Calls of `system_run` one at a time, for the systems at the listed
addresses in list order. -/
def run_calls (d : Defs) : World → List Nat → Option World
  | w, [] => some w
  | w, sp :: rest =>
    match system_run d w sp with
    | none => none
    | some w1 => run_calls d w1 rest

/-! ## `system_thread` (system.c) -/

/-- How a run of `system_thread` ends within a given number of loop iterations. -/
inductive ThreadOutcome where
  | returned (w : World)
  | null_dereference
  | still_running (w : World)

/-- Function `system_thread`, for the system at address `sp`: the loop
`while (system->status != TERMINATE) system_run(system);`, followed for at most
`fuel` iterations. -/
def system_thread (d : Defs) : Nat → World → Nat → ThreadOutcome
  | fuel, w, sp =>
    if (w.systems sp).status ≠ TERMINATE then
      match fuel with
      | 0 => ThreadOutcome.still_running w
      | n + 1 =>
        match system_run d w sp with
        | none => ThreadOutcome.null_dereference
        | some w1 => system_thread d n w1 sp
    else ThreadOutcome.returned w

/-! ## Constructors and registries (`resource.c`, `system.c`) -/

/-- Function `resource_create`: the heap and the content of `*resource` after
the call (`resource` is `none` for a null `Resource **`, `name` is `none` for a
null string); `fresh` is the address `malloc` returns for the new object. -/
def resource_create (w : World) (resource : Option (Option Nat)) (name : Option String)
    (amount : Int) (max_capacity : Int) (fresh : Nat) : World × Option (Option Nat) :=
  match resource, name with
  | some _, some n =>
    ({ w with
       resources := Function.update w.resources fresh
         { name := n, amount := amount, max_capacity := max_capacity } },
      some (some fresh))
  | _, _ => (w, resource)

/-- Function `resource_amount_init`. -/
def resource_amount_init (resource : Option Nat) (amount : Int) : ResourceAmount :=
  { resource := resource, amount := amount }

/-- Function `system_create`: the heap and the content of `*system` after the
call; `fresh` is the address `malloc` returns for the new object. -/
def system_create (w : World) (system : Option (Option Nat)) (name : Option String)
    (consumed : ResourceAmount) (produced : ResourceAmount) (processing_time : Int)
    (event_queue : Option Nat) (fresh : Nat) : World × Option (Option Nat) :=
  match system, name with
  | some _, some n =>
    ({ w with
       systems := Function.update w.systems fresh
         { name := n, consumed := consumed, produced := produced,
           processing_time := processing_time, event_queue := event_queue,
           status := STANDARD, amount_stored := 0 } },
      some (some fresh))
  | _, _ => (w, system)

/-- Struct `ResourceArray`: `resources` lists the slots of the allocated block
(one `Resource *` each), the empty list when there is no block. -/
structure ResourceArray where
  resources : List (Option Nat)
  size : Int
  capacity : Int
deriving DecidableEq, Repr

/-- Struct `SystemArray`: `systems` lists the slots of the allocated block. -/
structure SystemArray where
  systems : List (Option Nat)
  size : Int
  capacity : Int
deriving DecidableEq, Repr

/-- Function `resource_array_init`.  The slot of the fresh block holds no
pointer yet; the model writes it as `none`, and nothing reads it before it is
assigned. -/
def resource_array_init (array : Option ResourceArray) : Option ResourceArray :=
  match array with
  | none => none
  | some _ => some { resources := [none], capacity := 1, size := 0 }

/-- Function `system_array_init`. -/
def system_array_init (array : Option SystemArray) : Option SystemArray :=
  match array with
  | none => none
  | some _ => some { systems := [none], capacity := 1, size := 0 }

/-- The copy loop of the two `_array_add` functions,
`for (i = 0; i < size; i++) new[i] = old[i];`, after `n` iterations. -/
def copy_loop (old : List (Option Nat)) : Nat → List (Option Nat) → List (Option Nat)
  | 0, new => new
  | n + 1, new => (copy_loop old n new).set n (old.getD n none)

/-- Function `resource_array_add`: the array after the call; the outer `none`
when the call reads or writes a slot outside a block. -/
def resource_array_add (array : Option ResourceArray) (resource : Option Nat) :
    Option (Option ResourceArray) :=
  match array, resource with
  | some a, some r =>
    let grown : Option ResourceArray :=
      if a.size ≥ a.capacity then
        let new_capacity := wrapInt (a.capacity * 2)
        if a.size.toNat ≤ a.resources.length ∧ a.size.toNat ≤ new_capacity.toNat then
          some { resources :=
                   copy_loop a.resources a.size.toNat (List.replicate new_capacity.toNat none),
                 capacity := new_capacity, size := a.size }
        else none
      else some a
    match grown with
    | none => none
    | some a1 =>
      if 0 ≤ a1.size ∧ a1.size.toNat < a1.resources.length then
        some (some { a1 with
                     resources := a1.resources.set a1.size.toNat (some r),
                     size := wrapInt (a1.size + 1) })
      else none
  | _, _ => some array

/-- Function `system_array_add`: the array after the call; the outer `none`
when the call reads or writes a slot outside a block. -/
def system_array_add (array : Option SystemArray) (system : Option Nat) :
    Option (Option SystemArray) :=
  match array, system with
  | some a, some s =>
    let grown : Option SystemArray :=
      if a.size ≥ a.capacity then
        let new_capacity := wrapInt (a.capacity * 2)
        if a.size.toNat ≤ a.systems.length ∧ a.size.toNat ≤ new_capacity.toNat then
          some { systems :=
                   copy_loop a.systems a.size.toNat (List.replicate new_capacity.toNat none),
                 capacity := new_capacity, size := a.size }
        else none
      else some a
    match grown with
    | none => none
    | some a1 =>
      if 0 ≤ a1.size ∧ a1.size.toNat < a1.systems.length then
        some (some { a1 with
                     systems := a1.systems.set a1.size.toNat (some s),
                     size := wrapInt (a1.size + 1) })
      else none
  | _, _ => some array

/-- Successive calls of `resource_array_add` for the resources at the listed
(non-null) addresses, in list order. -/
def add_resources : Option ResourceArray → List Nat → Option (Option ResourceArray)
  | array, [] => some array
  | array, r :: rest =>
    match resource_array_add array (some r) with
    | none => none
    | some array1 => add_resources array1 rest

/-- Successive calls of `system_array_add` for the systems at the listed
(non-null) addresses, in list order. -/
def add_systems : Option SystemArray → List Nat → Option (Option SystemArray)
  | array, [] => some array
  | array, s :: rest =>
    match system_array_add array (some s) with
    | none => none
    | some array1 => add_systems array1 rest

/-- The heap with the status of the system at address `sp` set to `status`. -/
def with_status (w : World) (sp : Nat) (status : SystemStatus) : World :=
  { w with systems := Function.update w.systems sp { w.systems sp with status := status } }

/-- The heap with the `consumed` pairing of the system at address `sp` set to
`consumed`. -/
def with_consumed (w : World) (sp : Nat) (consumed : ResourceAmount) : World :=
  { w with systems := Function.update w.systems sp { w.systems sp with consumed := consumed } }

/-! ## Semaphore and sleep calls along a run -/

/-- The semaphores of the program: the `mutex` of the resource, or of the event
queue, at an address. -/
inductive Lock where
  | resource_mutex (resource : Nat)
  | queue_mutex (queue : Nat)
deriving DecidableEq, Repr

/-- The calls by which a thread takes a lock, gives it back, or sleeps. -/
inductive Act where
  | sem_wait (lock : Lock)
  | sem_post (lock : Lock)
  | usleep (microseconds : Int)
deriving DecidableEq, Repr

/-- The calls made by `event_queue_push(queue, event)` (event.c 74-102), in
order, for the queue at the given address. -/
def event_queue_push_acts (queue : Option Nat) (event : Option Event) : List Act :=
  match queue, event with
  | some q, some _ => [Act.sem_wait (Lock.queue_mutex q), Act.sem_post (Lock.queue_mutex q)]
  | _, _ => []

/-- The calls made by `system_simulate_process_time`: one `usleep` of the
adjusted time in microseconds. -/
def system_simulate_process_time_acts (system : System) : List Act :=
  [Act.usleep (wrapInt (system_simulate_process_time system * 1000))]

/-- The calls made by `system_convert` (system.c 150-181), in order. -/
def system_convert_acts (w : World) (sp : Nat) : List Act :=
  (match (w.systems sp).consumed.resource with
    | none => []
    | some cp =>
      [Act.sem_wait (Lock.resource_mutex cp), Act.sem_post (Lock.resource_mutex cp)])
  ++ (if (system_convert w sp).1 = STATUS_OK then
        system_simulate_process_time_acts (w.systems sp)
      else [])

/-- The calls made by `system_store_resources` (system.c 208-235), in order. -/
def system_store_resources_acts (w : World) (sp : Nat) : List Act :=
  match (w.systems sp).produced.resource with
  | none => []
  | some pp =>
    if (w.systems sp).amount_stored = 0 then []
    else [Act.sem_wait (Lock.resource_mutex pp), Act.sem_post (Lock.resource_mutex pp)]

/-- The calls made by the first phase of `system_run` (system.c 126-134). -/
def system_run_convert_acts (d : Defs) (w : World) (sp : Nat) : List Act :=
  if (w.systems sp).amount_stored = 0 then
    let r := system_convert w sp
    system_convert_acts w sp ++
      (if r.1 ≠ STATUS_OK then
        match (r.2.systems sp).consumed.resource with
        | none => []
        | some cp =>
          event_queue_push_acts (r.2.systems sp).event_queue
              (some (event_init (some sp) (some cp) r.1 d.PRIORITY_HIGH
                (r.2.resources cp).amount))
            ++ [Act.usleep (wrapInt (d.SYSTEM_WAIT_TIME * 1000))]
      else [])
  else []

/-- The calls made by the second phase of `system_run` (system.c 136-144). -/
def system_run_store_acts (d : Defs) (w : World) (sp : Nat) : List Act :=
  if (w.systems sp).amount_stored > 0 then
    let r := system_store_resources w sp
    system_store_resources_acts w sp ++
      (if r.1 ≠ STATUS_OK then
        match (r.2.systems sp).produced.resource with
        | none => []
        | some pp =>
          event_queue_push_acts (r.2.systems sp).event_queue
              (some (event_init (some sp) (some pp) r.1 d.PRIORITY_LOW
                (r.2.resources pp).amount))
            ++ [Act.usleep (wrapInt (d.SYSTEM_WAIT_TIME * 1000))]
      else [])
  else []

/-- The calls made by `system_run`, in order: those of the first phase, then
those of the second phase on the heap the first phase leaves. -/
def system_run_acts (d : Defs) (w : World) (sp : Nat) : List Act :=
  system_run_convert_acts d w sp ++
    (match system_run_convert d w sp with
      | none => []
      | some w1 => system_run_store_acts d w1 sp)

/-- A sequence of calls, started while holding `held`, never holds more than
one lock: a `sem_wait` comes only while no lock is held, the next call on a
lock is then the `sem_post` of that same lock, a `usleep` comes only while no
lock is held, and no lock is held at the end. -/
def one_lock_at_a_time : Option Lock → List Act → Bool
  | none, [] => true
  | some _, [] => false
  | none, Act.sem_wait l :: rest => one_lock_at_a_time (some l) rest
  | some _, Act.sem_wait _ :: _ => false
  | some h, Act.sem_post l :: rest => decide (l = h) && one_lock_at_a_time none rest
  | none, Act.sem_post _ :: _ => false
  | none, Act.usleep _ :: rest => one_lock_at_a_time none rest
  | some _, Act.usleep _ :: _ => false

/-- A resource array holds exactly the listed resources, in order, in its first
`size` slots, in a block of `capacity >= 1` slots. -/
def holds_resources (a : ResourceArray) (elements : List Nat) : Prop :=
  a.size = elements.length ∧ (a.resources.length : Int) = a.capacity ∧
  1 ≤ a.capacity ∧ a.size ≤ a.capacity ∧ a.capacity ≤ 2147483647 ∧
  a.resources.take elements.length = elements.map some

/-- The resource array with the same block, size and capacity as a system
array. -/
def SystemArray.as_resources (a : SystemArray) : ResourceArray :=
  { resources := a.systems, size := a.size, capacity := a.capacity }

/-! ## Theorems -/

/-! ### The event queue -/

theorem insert_node_perm (l : List Event) (e : Event) :
    (insert_node l e).Perm (e :: l) := by
  induction l with
  | nil => simp [insert_node]
  | cons n rest ih =>
    unfold insert_node
    split
    · exact (List.Perm.cons n ih).trans (List.Perm.swap e n rest)
    · exact List.Perm.refl _

theorem insert_node_sorted (l : List Event) (e : Event) (h : sorted_desc l) :
    sorted_desc (insert_node l e) := by
  induction l with
  | nil => simp [insert_node, sorted_desc]
  | cons n rest ih =>
    unfold sorted_desc at h ih ⊢
    rw [List.pairwise_cons] at h
    unfold insert_node
    split
    · rename_i hge
      rw [List.pairwise_cons]
      refine ⟨?_, ih h.2⟩
      intro x hx
      rcases List.mem_cons.mp ((insert_node_perm rest e).mem_iff.mp hx) with hxe | hxr
      · rw [hxe]; exact hge
      · exact h.1 x hxr
    · rename_i hlt
      rw [List.pairwise_cons, List.pairwise_cons]
      refine ⟨?_, h⟩
      intro x hx
      rcases List.mem_cons.mp hx with hxn | hxr
      · rw [hxn]; omega
      · have := h.1 x hxr
        omega

theorem apply_op_sorted (q : EventQueue) (op : QueueOp) (h : sorted_desc q.head) :
    ∃ q1, apply_op (some q) op = some q1 ∧ sorted_desc q1.head := by
  cases op with
  | push event =>
    cases event with
    | none => exact ⟨q, rfl, h⟩
    | some e => exact ⟨{ head := insert_node q.head e }, rfl, insert_node_sorted _ _ h⟩
  | pop event =>
    cases event with
    | none => exact ⟨q, rfl, h⟩
    | some e =>
      cases hq : q.head with
      | nil => exact ⟨q, by simp [apply_op, event_queue_pop, hq], by rw [hq]; simp [sorted_desc]⟩
      | cons n rest =>
        refine ⟨{ head := rest }, by simp [apply_op, event_queue_pop, hq], ?_⟩
        rw [hq] at h
        exact (List.pairwise_cons.mp h).2

theorem run_ops_sorted (ops : List QueueOp) (q : EventQueue) (h : sorted_desc q.head) :
    ∃ q1, run_ops (some q) ops = some q1 ∧ sorted_desc q1.head := by
  induction ops generalizing q with
  | nil => exact ⟨q, rfl, h⟩
  | cons op rest ih =>
    obtain ⟨q1, h1, hs1⟩ := apply_op_sorted q op h
    obtain ⟨q2, h2, hs2⟩ := ih q1 hs1
    exact ⟨q2, by simp only [run_ops, List.foldl_cons] at h2 ⊢; rw [h1]; exact h2, hs2⟩

theorem push_all_some (events : List Event) (q : EventQueue) :
    push_all (some q) events = some { head := events.foldl insert_node q.head } := by
  induction events generalizing q with
  | nil => rfl
  | cons e rest ih =>
    simp only [push_all, List.foldl_cons] at ih ⊢
    exact ih { head := insert_node q.head e }

theorem foldl_insert_node_perm (events l : List Event) :
    (events.foldl insert_node l).Perm (l ++ events) := by
  induction events generalizing l with
  | nil => simp
  | cons e rest ih =>
    simp only [List.foldl_cons]
    refine (ih (insert_node l e)).trans ?_
    refine ((insert_node_perm l e).append_right rest).trans ?_
    have hmid : (l ++ e :: rest).Perm (e :: (l ++ rest)) := List.perm_middle
    simpa using hmid.symm

theorem foldl_insert_node_sorted (events l : List Event) (h : sorted_desc l) :
    sorted_desc (events.foldl insert_node l) := by
  induction events generalizing l with
  | nil => exact h
  | cons e rest ih => exact ih _ (insert_node_sorted l e h)

theorem pop_n_drain (l : List Event) (out : Event) :
    pop_n (l.length + 1) (some { head := l }) (some out)
      = l.map (fun e => ((1 : Int), some e)) ++ [(0, some (l.getLastD out))] := by
  induction l generalizing out with
  | nil => rfl
  | cons n rest ih =>
    have := ih n
    simp only [List.length_cons, pop_n, event_queue_pop, List.map_cons, List.cons_append,
      List.getLastD_cons] at this ⊢
    rw [this]

/-- C1: from a queue set up by `event_queue_init`, every sequence of
`event_queue_push` / `event_queue_pop` calls leaves a list in non-increasing
priority order; and after pushing `n` events, `n` pops succeed (return 1) and
deliver the pushed events in non-increasing priority order, and one more pop
returns 0. -/
theorem event_queue_sorted_and_drains (q0 : EventQueue) :
    (∀ ops : List QueueOp, ∃ q,
      run_ops (event_queue_init (some q0)) ops = some q ∧ sorted_desc q.head) ∧
    (∀ (events : List Event) (out : Event), ∃ l : List Event,
      l.Perm events ∧ sorted_desc l ∧
      pop_n (events.length + 1) (push_all (event_queue_init (some q0)) events) (some out)
        = l.map (fun e => ((1 : Int), some e)) ++ [(0, some (l.getLastD out))]) := by
  refine ⟨fun ops => run_ops_sorted ops { head := [] } (by simp [sorted_desc]), ?_⟩
  intro events out
  refine ⟨events.foldl insert_node [], ?_, ?_, ?_⟩
  · simpa using foldl_insert_node_perm events []
  · exact foldl_insert_node_sorted events [] (by simp [sorted_desc])
  · have hlen : events.length = (events.foldl insert_node []).length := by
      simpa using (foldl_insert_node_perm events []).length_eq.symm
    simp only [event_queue_init, push_all_some]
    rw [hlen]
    exact pop_n_drain _ out

theorem with_priority_insert_node (p : Int) (l : List Event) (e : Event)
    (h : sorted_desc l) :
    with_priority p (insert_node l e)
      = with_priority p l ++ with_priority p [e] := by
  induction l with
  | nil => simp [insert_node, with_priority]
  | cons n rest ih =>
    unfold sorted_desc at h ih
    rw [List.pairwise_cons] at h
    unfold insert_node
    split
    · have := ih h.2
      simp only [with_priority, List.filter_cons] at this ⊢
      split <;> simp [this]
    · rename_i hlt
      by_cases hp : e.priority = p
      · have hnone : with_priority p (n :: rest) = [] := by
          simp only [with_priority, List.filter_eq_nil_iff, decide_eq_true_eq]
          intro x hx
          rcases List.mem_cons.mp hx with hxn | hxr
          · rw [hxn]; omega
          · have := h.1 x hxr
            omega
        have hcons : with_priority p (e :: n :: rest) = e :: with_priority p (n :: rest) := by
          simp [with_priority, List.filter_cons, hp]
        rw [hcons, hnone]
        simp [with_priority, hp]
      · simp [with_priority, List.filter_cons, hp]

theorem with_priority_foldl_insert_node (p : Int) (events l : List Event)
    (h : sorted_desc l) :
    with_priority p (events.foldl insert_node l)
      = with_priority p l ++ with_priority p events := by
  induction events generalizing l with
  | nil => simp [with_priority]
  | cons e rest ih =>
    simp only [List.foldl_cons]
    rw [ih _ (insert_node_sorted l e h), with_priority_insert_node p l e h]
    simp [with_priority, List.filter_cons]
    split <;> simp

theorem pop_n_exact (l : List Event) (out : Event) :
    pop_n l.length (some { head := l }) (some out)
      = l.map (fun e => ((1 : Int), some e)) := by
  induction l generalizing out with
  | nil => rfl
  | cons n rest ih =>
    have := ih n
    simp only [List.length_cons, pop_n, event_queue_pop, List.map_cons] at this ⊢
    rw [this]

theorem insert_node_twice (l : List Event) (a b : Event) (h : a.priority = b.priority) :
    ∃ l1 l2 : List Event,
      l = l1 ++ l2 ∧ insert_node (insert_node l a) b = l1 ++ a :: b :: l2 := by
  induction l with
  | nil =>
    refine ⟨[], [], rfl, ?_⟩
    simp [insert_node, h]
  | cons n rest ih =>
    by_cases hn : n.priority ≥ a.priority
    · obtain ⟨l1, l2, h1, h2⟩ := ih
      refine ⟨n :: l1, l2, by rw [h1]; rfl, ?_⟩
      have hb : n.priority ≥ b.priority := by omega
      simp only [insert_node, hn, hb, if_true, h2, List.cons_append]
    · refine ⟨[], n :: rest, rfl, ?_⟩
      have hb : ¬ n.priority ≥ b.priority := by omega
      have hab : a.priority ≥ b.priority := by omega
      simp only [insert_node, hn, hb, hab, if_true, if_false, List.nil_append]

/-- C2 (as stated, refuted): pushing events of priorities 10, 50, 50, 20 (tagged
1 to 4 in push order) and popping four times delivers the first-pushed 50
before the second-pushed 50, not the other way round. -/
theorem equal_priority_newest_first_fails :
    (tagged_event 50 2).priority = (tagged_event 50 3).priority ∧
    pop_n 4
        (push_all (event_queue_init (some { head := [] }))
          [tagged_event 10 1, tagged_event 50 2, tagged_event 50 3, tagged_event 20 4])
        (some (tagged_event 0 0))
      = [(1, some (tagged_event 50 2)), (1, some (tagged_event 50 3)),
         (1, some (tagged_event 20 4)), (1, some (tagged_event 10 1))] ∧
    pop_n 4
        (push_all (event_queue_init (some { head := [] }))
          [tagged_event 10 1, tagged_event 50 2, tagged_event 50 3, tagged_event 20 4])
        (some (tagged_event 0 0))
      ≠ [(1, some (tagged_event 50 3)), (1, some (tagged_event 50 2)),
         (1, some (tagged_event 20 4)), (1, some (tagged_event 10 1))] := by
  decide

/-- C2 (amended): events of equal priority leave the queue in the order they
were pushed.  For a queue in non-increasing priority order and any pushes with
no pop in between, popping everything delivers a list `l` in which the events
of each priority `p` are those already queued followed by the pushed ones, both
in their original order; in particular an event `a` pushed directly before an
event `b` of the same priority ends up directly before it.  Pushing 10, 50,
50, 20 delivers the first 50, the second 50, 20, 10. -/
theorem equal_priority_oldest_first (q : EventQueue) (events : List Event) (out : Event)
    (hq : sorted_desc q.head) :
    (∃ l : List Event,
      pop_n l.length (push_all (some q) events) (some out)
        = l.map (fun e => ((1 : Int), some e)) ∧
      l.length = q.head.length + events.length ∧
      ∀ p : Int, with_priority p l = with_priority p q.head ++ with_priority p events) ∧
    (∀ a b : Event, a.priority = b.priority → ∃ l1 l2 : List Event,
      q.head = l1 ++ l2 ∧
      push_all (some q) [a, b] = some { head := l1 ++ a :: b :: l2 }) ∧
    pop_n 4
        (push_all (event_queue_init (some q))
          [tagged_event 10 1, tagged_event 50 2, tagged_event 50 3, tagged_event 20 4])
        (some out)
      = [(1, some (tagged_event 50 2)), (1, some (tagged_event 50 3)),
         (1, some (tagged_event 20 4)), (1, some (tagged_event 10 1))] := by
  refine ⟨⟨events.foldl insert_node q.head, ?_, ?_, ?_⟩, ?_, ?_⟩
  · rw [push_all_some]
    exact pop_n_exact _ out
  · simpa using (foldl_insert_node_perm events q.head).length_eq
  · intro p
    exact with_priority_foldl_insert_node p events q.head hq
  · intro a b hab
    obtain ⟨l1, l2, h1, h2⟩ := insert_node_twice q.head a b hab
    exact ⟨l1, l2, h1, by rw [push_all_some]; simp only [List.foldl_cons, List.foldl_nil, h2]⟩
  · rfl

/-- Witness for C2 (amended): with the first 50 already queued, pushing two more
events of priority 50 puts them behind it, in push order. -/
theorem equal_priority_oldest_first_witness :
    sorted_desc [tagged_event 50 1] ∧
    ∃ l1 l2 : List Event,
      [tagged_event 50 1] = l1 ++ l2 ∧
      push_all (some { head := [tagged_event 50 1] }) [tagged_event 50 2, tagged_event 50 3]
        = some { head := l1 ++ tagged_event 50 2 :: tagged_event 50 3 :: l2 } :=
  ⟨by decide,
    (equal_priority_oldest_first { head := [tagged_event 50 1] } [] (tagged_event 0 0)
      (by decide)).2.1 (tagged_event 50 2) (tagged_event 50 3) rfl⟩

/-- C3: on every queue reached from `event_queue_init` by pushes and pops,
`event_queue_pop` on a non-empty queue returns 1, writes the head event to the
caller's event, leaves the former tail as the queue, and that event has the
greatest priority of all queued events; on an empty queue it returns 0 and
leaves the queue and the caller's event as they were. -/
theorem event_queue_pop_returns_max (q0 : EventQueue) (ops : List QueueOp) (out : Event) :
    ∃ q, run_ops (event_queue_init (some q0)) ops = some q ∧
      match q.head with
      | [] => event_queue_pop (some q) (some out) = (0, some q, some out)
      | n :: rest =>
        event_queue_pop (some q) (some out) = (1, some { head := rest }, some n) ∧
        (event_queue_pop (some q) (some out)).1 ≠ 0 ∧
        ∀ e ∈ q.head, n.priority ≥ e.priority := by
  obtain ⟨q, hq, hs⟩ := run_ops_sorted ops { head := [] } (by simp [sorted_desc])
  refine ⟨q, hq, ?_⟩
  cases hh : q.head with
  | nil => simp [event_queue_pop, hh]
  | cons n rest =>
    rw [hh] at hs
    refine ⟨by simp [event_queue_pop, hh], by simp [event_queue_pop, hh], ?_⟩
    intro e he
    rcases List.mem_cons.mp he with hen | her
    · subst hen
      exact le_refl _
    · exact (List.pairwise_cons.mp hs).1 e her

/-! ### The system cycle -/

theorem wrapInt_of_isInt (x : Int) (h : IsInt x) : wrapInt x = x := by
  unfold IsInt at h
  unfold wrapInt
  omega

/-- C10: for a non-negative `processing_time` whose double fits in an `int`,
the delay of `system_simulate_process_time` is `processing_time * 2` under
SLOW, `processing_time / 2` rounded towards zero under FAST (an odd value
loses its remainder) and `processing_time` under STANDARD. -/
theorem process_time_delay (system : System)
    (h0 : 0 ≤ system.processing_time)
    (h2 : system.processing_time * 2 ≤ 2147483647) :
    (system.status = SLOW →
      system_simulate_process_time system = system.processing_time * 2) ∧
    (system.status = FAST →
      system_simulate_process_time system = system.processing_time / 2 ∧
      0 ≤ system_simulate_process_time system ∧
      (system.processing_time = 2 * system_simulate_process_time system ∨
        system.processing_time = 2 * system_simulate_process_time system + 1)) ∧
    (system.status = STANDARD →
      system_simulate_process_time system = system.processing_time) := by
  refine ⟨?_, ?_, ?_⟩
  · intro hs
    simp only [system_simulate_process_time, hs]
    exact wrapInt_of_isInt _ ⟨by omega, h2⟩
  · intro hs
    have ht : Int.tdiv system.processing_time 2 = system.processing_time / 2 :=
      Int.tdiv_eq_ediv h0 (by decide)
    simp only [system_simulate_process_time, hs, ht]
    refine ⟨trivial, by omega, ?_⟩
    rcases Int.emod_two_eq_zero_or_one system.processing_time with h | h
    · left; omega
    · right; omega
  · intro hs
    simp only [system_simulate_process_time, hs]

/-- Witness for C10: a FAST system with `processing_time` 5 sleeps 2 ms. -/
theorem process_time_delay_witness :
    (0 : Int) ≤ 5 ∧ (5 : Int) * 2 ≤ 2147483647 ∧
    system_simulate_process_time
      { scenario_systems 2 with processing_time := 5, status := FAST } = 5 / 2 :=
  ⟨by decide, by decide,
    ((process_time_delay { scenario_systems 2 with processing_time := 5, status := FAST }
      (by decide) (by decide)).2.1 rfl).1⟩

/-- C4: with `amount_stored == 0`, `system_convert` succeeds when the consumed
resource holds at least `consumed.amount` (its amount then drops by exactly
`consumed.amount`, nothing else in the resources changes) and when there is no
consumed resource (no resource changes); in both cases `amount_stored` becomes
`produced.amount` if there is a produced resource and 0 otherwise.  The amounts
are `int`s and the subtraction does not overflow. -/
theorem system_convert_success (w : World) (sp : Nat)
    (hs : (w.systems sp).amount_stored = 0)
    (hp : IsInt (w.systems sp).produced.amount) :
    (∀ cp : Nat, (w.systems sp).consumed.resource = some cp →
      (w.resources cp).amount ≥ (w.systems sp).consumed.amount →
      IsInt ((w.resources cp).amount - (w.systems sp).consumed.amount) →
      (system_convert w sp).1 = STATUS_OK ∧
      (system_convert w sp).2.resources cp
        = { w.resources cp with
            amount := (w.resources cp).amount - (w.systems sp).consumed.amount } ∧
      (∀ p : Nat, p ≠ cp → (system_convert w sp).2.resources p = w.resources p) ∧
      ((system_convert w sp).2.systems sp).amount_stored
        = if (w.systems sp).produced.resource ≠ none then (w.systems sp).produced.amount
          else 0) ∧
    ((w.systems sp).consumed.resource = none →
      (system_convert w sp).1 = STATUS_OK ∧
      (system_convert w sp).2.resources = w.resources ∧
      ((system_convert w sp).2.systems sp).amount_stored
        = if (w.systems sp).produced.resource ≠ none then (w.systems sp).produced.amount
          else 0) := by
  have hw : wrapInt (0 + (w.systems sp).produced.amount) = (w.systems sp).produced.amount := by
    rw [Int.zero_add]; exact wrapInt_of_isInt _ hp
  refine ⟨?_, ?_⟩
  · intro cp hc hge hsub
    have hge' : (w.systems sp).consumed.amount ≤ (w.resources cp).amount := hge
    simp only [system_convert, hc, hge, hge', if_true, hs, hw, wrapInt_of_isInt _ hsub]
    by_cases hpr : (w.systems sp).produced.resource = none
    · simp [hpr]
      intro p hp; simp [Function.update_noteq hp]
    · simp [hpr]
      intro p hp; simp [Function.update_noteq hp]
  · intro hc
    simp only [system_convert, hc, if_true, hs, hw]
    by_cases hpr : (w.systems sp).produced.resource = none
    · simp [hpr]
    · simp [hpr]

/-- Witness for C4: Propulsion in the `load_data` scenario turns 5 of the 1000
Fuel into 25 stored units. -/
theorem system_convert_success_witness :
    (scenario.systems 0).amount_stored = 0 ∧
    IsInt (scenario.systems 0).produced.amount ∧
    (system_convert scenario 0).1 = STATUS_OK ∧
    ((system_convert scenario 0).2.resources 0).amount = 995 ∧
    ((system_convert scenario 0).2.systems 0).amount_stored = 25 :=
  have h := (system_convert_success scenario 0 rfl (by decide)).1 0 rfl (by decide) (by decide)
  ⟨rfl, by decide, h.1, by rw [h.2.1]; rfl, by rw [h.2.2.2]; rfl⟩

theorem insert_node_length (l : List Event) (e : Event) :
    (insert_node l e).length = l.length + 1 := by
  simpa using (insert_node_perm l e).length_eq

/-- C5: when `amount_stored == 0` and the consumed resource holds less than
`consumed.amount`, one call of `system_run` changes no resource and no system
(so `amount_stored` stays 0) and pushes exactly one event onto the system's
queue: it names the system and the consumed resource, has priority
`PRIORITY_HIGH`, carries the resource's amount, and its status is
`STATUS_EMPTY` when that amount is 0 and `STATUS_INSUFFICIENT` otherwise. -/
theorem system_run_shortfall (d : Defs) (w : World) (sp cp qp : Nat)
    (hs : (w.systems sp).amount_stored = 0)
    (hc : (w.systems sp).consumed.resource = some cp)
    (hlt : (w.resources cp).amount < (w.systems sp).consumed.amount)
    (hq : (w.systems sp).event_queue = some qp) :
    ∃ w1 : World, system_run d w sp = some w1 ∧
      w1.resources = w.resources ∧ w1.systems = w.systems ∧
      (∀ a : Nat, a ≠ qp → w1.queues a = w.queues a) ∧
      some (w1.queues qp) = event_queue_push (some (w.queues qp))
        (some { system := some sp, resource := some cp,
                status := if (w.resources cp).amount = 0 then STATUS_EMPTY
                  else STATUS_INSUFFICIENT,
                priority := d.PRIORITY_HIGH, amount := (w.resources cp).amount }) ∧
      (w1.queues qp).head.length = (w.queues qp).head.length + 1 := by
  have hnge : ¬ (w.resources cp).amount ≥ (w.systems sp).consumed.amount := by omega
  have hconv : system_convert w sp
      = (if (w.resources cp).amount = 0 then STATUS_EMPTY else STATUS_INSUFFICIENT, w) := by
    simp only [system_convert, hc, hnge, if_false]
    split <;> simp
  have hne : (if (w.resources cp).amount = 0 then STATUS_EMPTY else STATUS_INSUFFICIENT)
      ≠ STATUS_OK := by
    split <;> simp
  refine ⟨push_at w (some qp)
    (event_init (some sp) (some cp)
      (if (w.resources cp).amount = 0 then STATUS_EMPTY else STATUS_INSUFFICIENT)
      d.PRIORITY_HIGH (w.resources cp).amount), ?_, rfl, rfl, ?_, ?_, ?_⟩
  · simp only [system_run, system_run_convert, hs, if_true, hconv, hne, ne_eq,
      not_false_eq_true, hc, hq]
    simp [system_run_store, push_at, event_queue_push, hs]
  · intro a ha
    simp [push_at, event_queue_push, Function.update_noteq ha]
  · simp [push_at, event_queue_push, event_init]
  · simp [push_at, event_queue_push, insert_node_length]

/-- Witness for C5: with 3 Fuel left, Propulsion (which needs 5) reports
INSUFFICIENT with amount 3 at high priority, and Fuel stays at 3. -/
theorem system_run_shortfall_witness :
    ((with_amount scenario 0 3).systems 0).amount_stored = 0 ∧
    ((with_amount scenario 0 3).systems 0).consumed.resource = some 0 ∧
    ((with_amount scenario 0 3).resources 0).amount
      < ((with_amount scenario 0 3).systems 0).consumed.amount ∧
    ((with_amount scenario 0 3).systems 0).event_queue = some 0 ∧
    ∃ w1 : World, system_run example_defs (with_amount scenario 0 3) 0 = some w1 ∧
      (w1.resources 0).amount = 3 ∧
      (w1.systems 0).amount_stored = 0 ∧
      w1.queues 0 = { head := [{ system := some 0, resource := some 0,
                                 status := STATUS_INSUFFICIENT,
                                 priority := example_defs.PRIORITY_HIGH, amount := 3 }] } := by
  refine ⟨rfl, rfl, by decide, rfl, ?_⟩
  obtain ⟨w1, h1, hr, hsys, -, hpush, -⟩ :=
    system_run_shortfall example_defs (with_amount scenario 0 3) 0 0 0 rfl rfl (by decide) rfl
  refine ⟨w1, h1, by rw [hr]; rfl, by rw [hsys]; rfl, ?_⟩
  exact Option.some.inj hpush

/-- C6: `system_store_resources` with `amount_stored > 0` and a produced
resource, where `available_space = max_capacity - amount`: (i) if
`available_space >= amount_stored` the resource gains `amount_stored`,
`amount_stored` becomes 0 and the result is `STATUS_OK`; (ii) else if
`available_space > 0` the resource gains `available_space`, `amount_stored`
loses it and the result is `STATUS_CAPACITY`; (iii) else nothing changes and
the result is `STATUS_CAPACITY`.  No other resource changes.  With no produced
resource, `amount_stored` becomes 0 and the result is `STATUS_OK`.  The fields
are `int`s and `max_capacity - amount` does not overflow. -/
theorem system_store_resources_cases (w : World) (sp : Nat) :
    (∀ pp : Nat, (w.systems sp).produced.resource = some pp →
      (w.systems sp).amount_stored > 0 →
      IsInt (w.systems sp).amount_stored →
      IsInt (w.resources pp).amount →
      IsInt (w.resources pp).max_capacity →
      IsInt ((w.resources pp).max_capacity - (w.resources pp).amount) →
      ((w.resources pp).max_capacity - (w.resources pp).amount
          ≥ (w.systems sp).amount_stored →
        (system_store_resources w sp).1 = STATUS_OK ∧
        (system_store_resources w sp).2.resources pp
          = { w.resources pp with
              amount := (w.resources pp).amount + (w.systems sp).amount_stored } ∧
        ((system_store_resources w sp).2.systems sp).amount_stored = 0) ∧
      ((w.resources pp).max_capacity - (w.resources pp).amount
          < (w.systems sp).amount_stored →
        (w.resources pp).max_capacity - (w.resources pp).amount > 0 →
        (system_store_resources w sp).1 = STATUS_CAPACITY ∧
        (system_store_resources w sp).2.resources pp
          = { w.resources pp with
              amount := (w.resources pp).amount
                + ((w.resources pp).max_capacity - (w.resources pp).amount) } ∧
        ((system_store_resources w sp).2.systems sp).amount_stored
          = (w.systems sp).amount_stored
            - ((w.resources pp).max_capacity - (w.resources pp).amount)) ∧
      ((w.resources pp).max_capacity - (w.resources pp).amount
          < (w.systems sp).amount_stored →
        (w.resources pp).max_capacity - (w.resources pp).amount ≤ 0 →
        (system_store_resources w sp).1 = STATUS_CAPACITY ∧
        (system_store_resources w sp).2.resources = w.resources ∧
        ((system_store_resources w sp).2.systems sp).amount_stored
          = (w.systems sp).amount_stored) ∧
      (∀ p : Nat, p ≠ pp → (system_store_resources w sp).2.resources p = w.resources p)) ∧
    ((w.systems sp).produced.resource = none →
      (system_store_resources w sp).1 = STATUS_OK ∧
      (system_store_resources w sp).2.resources = w.resources ∧
      ((system_store_resources w sp).2.systems sp).amount_stored = 0) := by
  refine ⟨?_, ?_⟩
  · intro pp hp hpos hts hta htm htd
    have hne : (w.systems sp).amount_stored ≠ 0 := by omega
    have hwd := wrapInt_of_isInt _ htd
    have hwm := wrapInt_of_isInt _ htm
    unfold IsInt at hts hta htm htd
    refine ⟨?_, ?_, ?_, ?_⟩
    · intro hge
      have hge' : (w.systems sp).amount_stored
          ≤ (w.resources pp).max_capacity - (w.resources pp).amount := hge
      have hsum : wrapInt ((w.resources pp).amount + (w.systems sp).amount_stored)
          = (w.resources pp).amount + (w.systems sp).amount_stored :=
        wrapInt_of_isInt _ ⟨by omega, by omega⟩
      simp [system_store_resources, hp, hne, hwd, hge', hsum]
    · intro hlt hav
      have hnge : ¬ (w.systems sp).amount_stored
          ≤ (w.resources pp).max_capacity - (w.resources pp).amount := by omega
      have hsum : wrapInt ((w.resources pp).amount
            + ((w.resources pp).max_capacity - (w.resources pp).amount))
          = (w.resources pp).amount
            + ((w.resources pp).max_capacity - (w.resources pp).amount) :=
        wrapInt_of_isInt _ ⟨by omega, by omega⟩
      have hdiff : wrapInt ((w.systems sp).amount_stored
            - ((w.resources pp).max_capacity - (w.resources pp).amount))
          = (w.systems sp).amount_stored
            - ((w.resources pp).max_capacity - (w.resources pp).amount) :=
        wrapInt_of_isInt _ ⟨by omega, by omega⟩
      have hrem : ¬ (w.systems sp).amount_stored
          - ((w.resources pp).max_capacity - (w.resources pp).amount) = 0 := by omega
      simp [system_store_resources, hp, hne, hwd, hwm, hnge, hav, hsum, hdiff, hrem]
    · intro hlt hav
      have hnge : ¬ (w.systems sp).amount_stored
          ≤ (w.resources pp).max_capacity - (w.resources pp).amount := by omega
      have hnav : ¬ 0 < (w.resources pp).max_capacity - (w.resources pp).amount := by omega
      simp [system_store_resources, hp, hne, hwd, hnge, hnav]
    · intro p hpne
      simp only [system_store_resources, hp, hne, if_false]
      split_ifs <;> simp [Function.update_noteq hpne]
  · intro hp
    simp [system_store_resources, hp]

/-- Witness for C6: Life Support holding 4 units stores all of them into
Oxygen at 20 of 50. -/
theorem system_store_resources_cases_witness :
    ((with_stored scenario 1 4).systems 1).produced.resource = some 1 ∧
    ((with_stored scenario 1 4).systems 1).amount_stored > 0 ∧
    (system_store_resources (with_stored scenario 1 4) 1).1 = STATUS_OK ∧
    ((system_store_resources (with_stored scenario 1 4) 1).2.resources 1).amount = 24 ∧
    ((system_store_resources (with_stored scenario 1 4) 1).2.systems 1).amount_stored = 0 := by
  have h := ((system_store_resources_cases (with_stored scenario 1 4) 1).1 1 rfl
    (by decide) (by decide) (by decide) (by decide) (by decide)).1 (by decide)
  exact ⟨rfl, by decide, h.1, by rw [h.2.1]; rfl, h.2.2⟩

/-- C7: a call of `system_store_resources` on a system with a produced
resource leaves `resource.amount + amount_stored` as it was, whether it returns
`STATUS_OK` or `STATUS_CAPACITY` (and it returns one of the two).  The fields
are `int`s and no operation of the call overflows. -/
theorem system_store_resources_conserves (w : World) (sp pp : Nat)
    (hp : (w.systems sp).produced.resource = some pp)
    (hts : IsInt (w.systems sp).amount_stored)
    (hta : IsInt (w.resources pp).amount)
    (htm : IsInt (w.resources pp).max_capacity)
    (htd : IsInt ((w.resources pp).max_capacity - (w.resources pp).amount))
    (hneg : (w.systems sp).amount_stored < 0 →
      IsInt ((w.resources pp).amount + (w.systems sp).amount_stored)) :
    ((system_store_resources w sp).2.resources pp).amount
        + ((system_store_resources w sp).2.systems sp).amount_stored
      = (w.resources pp).amount + (w.systems sp).amount_stored ∧
    ((system_store_resources w sp).1 = STATUS_OK ∨
      (system_store_resources w sp).1 = STATUS_CAPACITY) := by
  unfold IsInt at hts hta htm htd hneg
  simp only [system_store_resources, hp]
  split_ifs <;> simp <;> unfold wrapInt at * <;> omega

/-- Witness for C7: Life Support holding 4 units with Oxygen at 48 of 50
commits 2 and keeps 2: 50 + 2 = 48 + 4. -/
theorem system_store_resources_conserves_witness :
    ((with_stored (with_amount scenario 1 48) 1 4).systems 1).produced.resource = some 1 ∧
    ((system_store_resources (with_stored (with_amount scenario 1 48) 1 4) 1).2.resources 1).amount
        + ((system_store_resources (with_stored (with_amount scenario 1 48) 1 4) 1).2.systems
            1).amount_stored
      = 48 + 4 ∧
    ((system_store_resources (with_stored (with_amount scenario 1 48) 1 4) 1).2.resources 1).amount
      = 50 ∧
    (system_store_resources (with_stored (with_amount scenario 1 48) 1 4) 1).1
      = STATUS_CAPACITY :=
  ⟨rfl,
    (system_store_resources_conserves (with_stored (with_amount scenario 1 48) 1 4) 1 1 rfl
      (by decide) (by decide) (by decide) (by decide) (by decide)).1,
    by decide, by decide⟩

/-- C8: when `amount_stored > 0` and the produced resource has less free space
(`max_capacity - amount`) than `amount_stored`, one call of `system_run` pushes
exactly one event onto the system's queue: it names the system and the
produced resource, has status `STATUS_CAPACITY`, priority `PRIORITY_LOW`, and
carries the produced resource's amount after the store attempt; when the free
space is 0 neither `amount_stored` nor the resources change.  The fields are
`int`s and `max_capacity - amount` does not overflow. -/
theorem system_run_capacity (d : Defs) (w : World) (sp pp qp : Nat)
    (hpos : (w.systems sp).amount_stored > 0)
    (hp : (w.systems sp).produced.resource = some pp)
    (hfree : (w.resources pp).max_capacity - (w.resources pp).amount
      < (w.systems sp).amount_stored)
    (hq : (w.systems sp).event_queue = some qp)
    (hts : IsInt (w.systems sp).amount_stored)
    (htd : IsInt ((w.resources pp).max_capacity - (w.resources pp).amount)) :
    ∃ w1 : World, system_run d w sp = some w1 ∧
      (∀ a : Nat, a ≠ qp → w1.queues a = w.queues a) ∧
      some (w1.queues qp) = event_queue_push (some (w.queues qp))
        (some { system := some sp, resource := some pp, status := STATUS_CAPACITY,
                priority := d.PRIORITY_LOW, amount := (w1.resources pp).amount }) ∧
      (w1.queues qp).head.length = (w.queues qp).head.length + 1 ∧
      w1.resources = (system_store_resources w sp).2.resources ∧
      ((w.resources pp).max_capacity - (w.resources pp).amount = 0 →
        (w1.systems sp).amount_stored = (w.systems sp).amount_stored ∧
        w1.resources = w.resources) := by
  have hne : (w.systems sp).amount_stored ≠ 0 := by omega
  have hwd := wrapInt_of_isInt _ htd
  have hstatus : (system_store_resources w sp).1 = STATUS_CAPACITY := by
    unfold IsInt at hts htd
    simp only [system_store_resources, hp, hne, if_false, hwd]
    split_ifs <;> simp_all <;> unfold wrapInt at * <;> omega
  have hsys : ((system_store_resources w sp).2.systems sp).produced.resource = some pp
      ∧ ((system_store_resources w sp).2.systems sp).event_queue = some qp := by
    simp only [system_store_resources, hp, hne, if_false]
    split_ifs <;> simp [hp, hq]
  have hqs : (system_store_resources w sp).2.queues = w.queues := by
    simp only [system_store_resources, hp, hne, if_false]
    split_ifs <;> rfl
  have hconv : system_run_convert d w sp = some w := by
    simp [system_run_convert, hne]
  refine ⟨push_at (system_store_resources w sp).2 (some qp)
    (event_init (some sp) (some pp) STATUS_CAPACITY d.PRIORITY_LOW
      ((system_store_resources w sp).2.resources pp).amount), ?_, ?_, ?_, ?_, ?_, ?_⟩
  · simp only [system_run, hconv, system_run_store, hpos, if_true, hstatus, ne_eq,
      not_false_eq_true, hsys.1, hsys.2]
    simp
  · intro a ha
    simp [push_at, event_queue_push, Function.update_noteq ha, hqs]
  · simp [push_at, event_queue_push, event_init, hqs]
  · simp [push_at, event_queue_push, insert_node_length, hqs]
  · simp [push_at, event_queue_push]
  · intro hzero
    have hnge : ¬ (w.systems sp).amount_stored ≤ 0 := by omega
    have hw0 : wrapInt 0 = 0 := rfl
    simp [push_at, event_queue_push, system_store_resources, hp, hne, hw0, hzero, hnge]

/-- Witness for C8: Oxygen at 50 of 50 with 4 units held by Life Support: a
CAPACITY event of low priority with amount 50 is pushed and `amount_stored`
stays 4. -/
theorem system_run_capacity_witness :
    ((with_stored (with_amount scenario 1 50) 1 4).systems 1).amount_stored > 0 ∧
    ((with_stored (with_amount scenario 1 50) 1 4).systems 1).produced.resource = some 1 ∧
    ((with_stored (with_amount scenario 1 50) 1 4).resources 1).max_capacity
        - ((with_stored (with_amount scenario 1 50) 1 4).resources 1).amount
      < ((with_stored (with_amount scenario 1 50) 1 4).systems 1).amount_stored ∧
    ∃ w1 : World,
      system_run example_defs (with_stored (with_amount scenario 1 50) 1 4) 1 = some w1 ∧
      w1.queues 0 = { head := [{ system := some 1, resource := some 1,
                                 status := STATUS_CAPACITY,
                                 priority := example_defs.PRIORITY_LOW, amount := 50 }] } ∧
      (w1.systems 1).amount_stored = 4 := by
  refine ⟨by decide, rfl, by decide, ?_⟩
  obtain ⟨w1, h1, -, hpush, -, hres, hzero⟩ :=
    system_run_capacity example_defs (with_stored (with_amount scenario 1 50) 1 4) 1 1 0
      (by decide) rfl (by decide) rfl (by decide) (by decide)
  have hz := hzero (by decide)
  refine ⟨w1, h1, ?_, hz.1⟩
  have hamount : (w1.resources 1).amount = 50 := by rw [hz.2]; rfl
  rw [hamount] at hpush
  exact Option.some.inj hpush

theorem system_convert_eq_of_none (w : World) (sp : Nat)
    (hc : (w.systems sp).consumed.resource = none) :
    system_convert w sp
      = (STATUS_OK,
          { w with
            systems := Function.update w.systems sp
              { w.systems sp with
                amount_stored :=
                  if (w.systems sp).produced.resource ≠ none then
                    wrapInt ((w.systems sp).amount_stored + (w.systems sp).produced.amount)
                  else 0 } }) := by
  simp only [system_convert, hc, if_true]
  split_ifs <;> rfl

theorem system_convert_eq_of_enough (w : World) (sp cp : Nat)
    (hc : (w.systems sp).consumed.resource = some cp)
    (hge : (w.systems sp).consumed.amount ≤ (w.resources cp).amount) :
    system_convert w sp
      = (STATUS_OK,
          { w with
            resources := Function.update w.resources cp
              { w.resources cp with
                amount := wrapInt ((w.resources cp).amount - (w.systems sp).consumed.amount) }
            systems := Function.update w.systems sp
              { w.systems sp with
                amount_stored :=
                  if (w.systems sp).produced.resource ≠ none then
                    wrapInt ((w.systems sp).amount_stored + (w.systems sp).produced.amount)
                  else 0 } }) := by
  have hge' : (w.resources cp).amount ≥ (w.systems sp).consumed.amount := hge
  simp only [system_convert, hc, hge', if_true]
  split_ifs <;> rfl

theorem system_convert_eq_of_short (w : World) (sp cp : Nat)
    (hc : (w.systems sp).consumed.resource = some cp)
    (hlt : (w.resources cp).amount < (w.systems sp).consumed.amount) :
    system_convert w sp
      = (if (w.resources cp).amount = 0 then STATUS_EMPTY else STATUS_INSUFFICIENT, w) := by
  have hnge : ¬ (w.resources cp).amount ≥ (w.systems sp).consumed.amount := by omega
  simp only [system_convert, hc, hnge, if_false]
  split <;> simp

theorem system_convert_frame (w : World) (sp : Nat) :
    (∀ s : Nat, ((system_convert w sp).2.systems s).consumed = (w.systems s).consumed) ∧
    (∀ p : Nat, ((system_convert w sp).2.resources p).max_capacity
      = (w.resources p).max_capacity) ∧
    (∀ p : Nat, (system_convert w sp).2.resources p = w.resources p ∨
      ((w.systems sp).consumed.amount ≤ (w.resources p).amount ∧
        ((system_convert w sp).2.resources p).amount
          = wrapInt ((w.resources p).amount - (w.systems sp).consumed.amount))) := by
  cases hc : (w.systems sp).consumed.resource with
  | none =>
    rw [system_convert_eq_of_none w sp hc]
    refine ⟨?_, fun p => rfl, fun p => Or.inl rfl⟩
    intro s
    by_cases hs : s = sp
    · subst hs; simp
    · simp [Function.update_noteq hs]
  | some cp =>
    by_cases hge : (w.systems sp).consumed.amount ≤ (w.resources cp).amount
    · rw [system_convert_eq_of_enough w sp cp hc hge]
      refine ⟨?_, ?_, ?_⟩
      · intro s
        by_cases hs : s = sp
        · subst hs; simp
        · simp [Function.update_noteq hs]
      · intro p
        by_cases hp : p = cp
        · subst hp; simp
        · simp [Function.update_noteq hp]
      · intro p
        by_cases hp : p = cp
        · subst hp
          right
          exact ⟨hge, by simp⟩
        · left
          simp [Function.update_noteq hp]
    · rw [system_convert_eq_of_short w sp cp hc (by omega)]
      exact ⟨fun s => rfl, fun p => rfl, fun p => Or.inl rfl⟩

theorem system_store_resources_eq_of_idle (w : World) (sp : Nat)
    (h : (w.systems sp).produced.resource = none ∨ (w.systems sp).amount_stored = 0) :
    system_store_resources w sp
      = (STATUS_OK,
          { w with
            systems := Function.update w.systems sp
              { w.systems sp with amount_stored := 0 } }) := by
  cases hp : (w.systems sp).produced.resource with
  | none => simp only [system_store_resources, hp]
  | some pp =>
    have h0 : (w.systems sp).amount_stored = 0 := by
      rcases h with h | h
      · rw [hp] at h; cases h
      · exact h
    simp only [system_store_resources, hp, h0, if_true]

theorem system_store_resources_eq_of_full (w : World) (sp pp : Nat)
    (hp : (w.systems sp).produced.resource = some pp)
    (h0 : (w.systems sp).amount_stored ≠ 0)
    (hfull : (w.systems sp).amount_stored
      ≤ wrapInt ((w.resources pp).max_capacity - (w.resources pp).amount)) :
    system_store_resources w sp
      = (STATUS_OK,
          { w with
            resources := Function.update w.resources pp
              { w.resources pp with
                amount := wrapInt ((w.resources pp).amount + (w.systems sp).amount_stored) }
            systems := Function.update w.systems sp
              { w.systems sp with amount_stored := 0 } }) := by
  have hfull' : wrapInt ((w.resources pp).max_capacity - (w.resources pp).amount)
      ≥ (w.systems sp).amount_stored := hfull
  simp [system_store_resources, hp, h0, hfull']

theorem system_store_resources_eq_of_part (w : World) (sp pp : Nat)
    (hp : (w.systems sp).produced.resource = some pp)
    (h0 : (w.systems sp).amount_stored ≠ 0)
    (hfull : ¬ (w.systems sp).amount_stored
      ≤ wrapInt ((w.resources pp).max_capacity - (w.resources pp).amount))
    (hav : 0 < wrapInt ((w.resources pp).max_capacity - (w.resources pp).amount)) :
    system_store_resources w sp
      = (if wrapInt ((w.systems sp).amount_stored
              - wrapInt ((w.resources pp).max_capacity - (w.resources pp).amount)) = 0
          then STATUS_OK else STATUS_CAPACITY,
          { w with
            resources := Function.update w.resources pp
              { w.resources pp with
                amount := wrapInt ((w.resources pp).amount
                  + wrapInt ((w.resources pp).max_capacity - (w.resources pp).amount)) }
            systems := Function.update w.systems sp
              { w.systems sp with
                amount_stored := wrapInt ((w.systems sp).amount_stored
                  - wrapInt ((w.resources pp).max_capacity - (w.resources pp).amount)) } }) := by
  have hfull' : ¬ wrapInt ((w.resources pp).max_capacity - (w.resources pp).amount)
      ≥ (w.systems sp).amount_stored := hfull
  have hav' : wrapInt ((w.resources pp).max_capacity - (w.resources pp).amount) > 0 := hav
  simp only [system_store_resources, hp, h0, if_false, hfull', hav', if_true,
    Function.update_same]
  split_ifs <;> rfl

theorem system_store_resources_eq_of_stuck (w : World) (sp pp : Nat)
    (hp : (w.systems sp).produced.resource = some pp)
    (h0 : (w.systems sp).amount_stored ≠ 0)
    (hfull : ¬ (w.systems sp).amount_stored
      ≤ wrapInt ((w.resources pp).max_capacity - (w.resources pp).amount))
    (hav : ¬ 0 < wrapInt ((w.resources pp).max_capacity - (w.resources pp).amount)) :
    system_store_resources w sp = (STATUS_CAPACITY, w) := by
  have hfull' : ¬ wrapInt ((w.resources pp).max_capacity - (w.resources pp).amount)
      ≥ (w.systems sp).amount_stored := hfull
  have hav' : ¬ wrapInt ((w.resources pp).max_capacity - (w.resources pp).amount) > 0 := hav
  simp only [system_store_resources, hp, h0, if_false, hfull', hav']

theorem update_stored_consumed (w : World) (sp s : Nat) (x : Int) :
    (Function.update w.systems sp { w.systems sp with amount_stored := x } s).consumed
      = (w.systems s).consumed := by
  by_cases hs : s = sp
  · subst hs; simp
  · simp [Function.update_noteq hs]

theorem update_amount_capacity (w : World) (pp p : Nat) (x : Int) :
    (Function.update w.resources pp { w.resources pp with amount := x } p).max_capacity
      = (w.resources p).max_capacity := by
  by_cases hp : p = pp
  · subst hp; simp
  · simp [Function.update_noteq hp]

theorem system_store_resources_frame (w : World) (sp : Nat) :
    (∀ s : Nat, ((system_store_resources w sp).2.systems s).consumed
      = (w.systems s).consumed) ∧
    (∀ p : Nat, ((system_store_resources w sp).2.resources p).max_capacity
      = (w.resources p).max_capacity) ∧
    (∀ p : Nat, (system_store_resources w sp).2.resources p = w.resources p ∨
      ((w.systems sp).amount_stored
          ≤ wrapInt ((w.resources p).max_capacity - (w.resources p).amount) ∧
        ((system_store_resources w sp).2.resources p).amount
          = wrapInt ((w.resources p).amount + (w.systems sp).amount_stored)) ∨
      (0 < wrapInt ((w.resources p).max_capacity - (w.resources p).amount) ∧
        ((system_store_resources w sp).2.resources p).amount
          = wrapInt ((w.resources p).amount
              + wrapInt ((w.resources p).max_capacity - (w.resources p).amount)))) := by
  by_cases hidle : (w.systems sp).produced.resource = none ∨ (w.systems sp).amount_stored = 0
  · rw [system_store_resources_eq_of_idle w sp hidle]
    exact ⟨fun s => update_stored_consumed w sp s 0, fun p => rfl, fun p => Or.inl rfl⟩
  · have h0 : (w.systems sp).amount_stored ≠ 0 := fun h => hidle (Or.inr h)
    cases hp : (w.systems sp).produced.resource with
    | none => exact absurd (Or.inl hp) hidle
    | some pp =>
      by_cases hfull : (w.systems sp).amount_stored
          ≤ wrapInt ((w.resources pp).max_capacity - (w.resources pp).amount)
      · rw [system_store_resources_eq_of_full w sp pp hp h0 hfull]
        refine ⟨fun s => update_stored_consumed w sp s 0,
          fun p => update_amount_capacity w pp p _, fun p => ?_⟩
        by_cases hpp : p = pp
        · subst hpp
          right; left
          exact ⟨hfull, by simp⟩
        · left
          simp [Function.update_noteq hpp]
      · by_cases hav : 0 < wrapInt ((w.resources pp).max_capacity - (w.resources pp).amount)
        · rw [system_store_resources_eq_of_part w sp pp hp h0 hfull hav]
          refine ⟨fun s => update_stored_consumed w sp s _,
            fun p => update_amount_capacity w pp p _, fun p => ?_⟩
          by_cases hpp : p = pp
          · subst hpp
            right; right
            exact ⟨hav, by simp⟩
          · left
            simp [Function.update_noteq hpp]
        · rw [system_store_resources_eq_of_stuck w sp pp hp h0 hfull hav]
          exact ⟨fun s => rfl, fun p => rfl, fun p => Or.inl rfl⟩

theorem push_at_frame (w : World) (queue : Option Nat) (event : Event) :
    (push_at w queue event).resources = w.resources ∧
    (push_at w queue event).systems = w.systems := by
  unfold push_at
  split <;> exact ⟨rfl, rfl⟩

theorem system_run_convert_total (d : Defs) (w : World) (sp : Nat) :
    ∃ w1 : World, system_run_convert d w sp = some w1 ∧
      ((w1.resources = w.resources ∧ w1.systems = w.systems) ∨
        ((w.systems sp).amount_stored = 0 ∧
          w1.resources = (system_convert w sp).2.resources ∧
          w1.systems = (system_convert w sp).2.systems)) := by
  by_cases hs : (w.systems sp).amount_stored = 0
  · cases hc : (w.systems sp).consumed.resource with
    | none =>
      refine ⟨(system_convert w sp).2, ?_, Or.inr ⟨hs, rfl, rfl⟩⟩
      simp [system_run_convert, hs, system_convert_eq_of_none w sp hc]
    | some cp =>
      by_cases hge : (w.systems sp).consumed.amount ≤ (w.resources cp).amount
      · refine ⟨(system_convert w sp).2, ?_, Or.inr ⟨hs, rfl, rfl⟩⟩
        simp [system_run_convert, hs, system_convert_eq_of_enough w sp cp hc hge]
      · have hshort := system_convert_eq_of_short w sp cp hc (by omega)
        have hne : (if (w.resources cp).amount = 0 then STATUS_EMPTY else STATUS_INSUFFICIENT)
            ≠ STATUS_OK := by
          split <;> simp
        refine ⟨push_at w (w.systems sp).event_queue
          (event_init (some sp) (some cp)
            (if (w.resources cp).amount = 0 then STATUS_EMPTY else STATUS_INSUFFICIENT)
            d.PRIORITY_HIGH (w.resources cp).amount), ?_, Or.inl (push_at_frame _ _ _)⟩
        simp only [system_run_convert, hs, if_true, hshort, hne, ne_eq, not_false_eq_true, hc]
  · exact ⟨w, by simp [system_run_convert, hs], Or.inl ⟨rfl, rfl⟩⟩

theorem system_run_store_total (d : Defs) (w : World) (sp : Nat) :
    ∃ w1 : World, system_run_store d w sp = some w1 ∧
      ((w1.resources = w.resources ∧ w1.systems = w.systems) ∨
        ((w.systems sp).amount_stored > 0 ∧
          w1.resources = (system_store_resources w sp).2.resources ∧
          w1.systems = (system_store_resources w sp).2.systems)) := by
  by_cases hs : (w.systems sp).amount_stored > 0
  · by_cases hok : (system_store_resources w sp).1 = STATUS_OK
    · exact ⟨(system_store_resources w sp).2, by simp [system_run_store, hs, hok],
        Or.inr ⟨hs, rfl, rfl⟩⟩
    · have h0 : (w.systems sp).amount_stored ≠ 0 := by omega
      cases hp : (w.systems sp).produced.resource with
      | none =>
        rw [system_store_resources_eq_of_idle w sp (Or.inl hp)] at hok
        exact absurd rfl hok
      | some pp =>
        have hprod : ((system_store_resources w sp).2.systems sp).produced.resource
            = some pp := by
          by_cases hfull : (w.systems sp).amount_stored
              ≤ wrapInt ((w.resources pp).max_capacity - (w.resources pp).amount)
          · rw [system_store_resources_eq_of_full w sp pp hp h0 hfull]; simp [hp]
          · by_cases hav : 0 < wrapInt ((w.resources pp).max_capacity - (w.resources pp).amount)
            · rw [system_store_resources_eq_of_part w sp pp hp h0 hfull hav]; simp [hp]
            · rw [system_store_resources_eq_of_stuck w sp pp hp h0 hfull hav]; exact hp
        refine ⟨push_at (system_store_resources w sp).2
          ((system_store_resources w sp).2.systems sp).event_queue
          (event_init (some sp) (some pp) (system_store_resources w sp).1 d.PRIORITY_LOW
            ((system_store_resources w sp).2.resources pp).amount), ?_,
          Or.inr ⟨hs, (push_at_frame _ _ _).1, (push_at_frame _ _ _).2⟩⟩
        simp only [system_run_store, hs, if_true, hok, ne_eq, not_false_eq_true, hprod]
  · exact ⟨w, by simp [system_run_store, hs], Or.inl ⟨rfl, rfl⟩⟩

theorem system_convert_keeps_bounds (w : World) (sp p : Nat)
    (hres : resources_in_bounds w) (hty : capacities_are_int w)
    (hc : (w.systems sp).consumed.amount ≥ 0) :
    0 ≤ ((system_convert w sp).2.resources p).amount ∧
    ((system_convert w sp).2.resources p).amount
      ≤ ((system_convert w sp).2.resources p).max_capacity := by
  obtain ⟨-, hcap, hamt⟩ := system_convert_frame w sp
  have hb := hres p
  have ht := hty p
  unfold IsInt at ht
  rcases hamt p with h | ⟨hle, ha⟩
  · rw [h]; exact hb
  · rw [hcap p, ha]
    unfold wrapInt
    omega

theorem system_store_resources_keeps_bounds (w : World) (sp p : Nat)
    (hres : resources_in_bounds w) (hty : capacities_are_int w)
    (hs : (w.systems sp).amount_stored > 0) :
    0 ≤ ((system_store_resources w sp).2.resources p).amount ∧
    ((system_store_resources w sp).2.resources p).amount
      ≤ ((system_store_resources w sp).2.resources p).max_capacity := by
  obtain ⟨-, hcap, hamt⟩ := system_store_resources_frame w sp
  have hb := hres p
  have ht := hty p
  unfold IsInt at ht
  rcases hamt p with h | ⟨hle, ha⟩ | ⟨hav, ha⟩
  · rw [h]; exact hb
  · rw [hcap p, ha]
    unfold wrapInt at hle ⊢
    omega
  · rw [hcap p, ha]
    unfold wrapInt at hav ⊢
    omega

theorem system_run_step (d : Defs) (w : World) (sp : Nat)
    (hres : resources_in_bounds w) (hty : capacities_are_int w)
    (hc : (w.systems sp).consumed.amount ≥ 0) :
    ∃ w1 : World, system_run d w sp = some w1 ∧
      resources_in_bounds w1 ∧ capacities_are_int w1 ∧
      ∀ s : Nat, (w1.systems s).consumed = (w.systems s).consumed := by
  obtain ⟨wa, ha, hwa⟩ := system_run_convert_total d w sp
  obtain ⟨wb, hb, hwb⟩ := system_run_store_total d wa sp
  have hA : resources_in_bounds wa ∧ capacities_are_int wa ∧
      ∀ s : Nat, (wa.systems s).consumed = (w.systems s).consumed := by
    rcases hwa with ⟨hr, hsy⟩ | ⟨-, hr, hsy⟩
    · refine ⟨fun p => ?_, fun p => ?_, fun s => ?_⟩
      · rw [hr]; exact hres p
      · rw [hr]; exact hty p
      · rw [hsy]
    · refine ⟨fun p => ?_, fun p => ?_, fun s => ?_⟩
      · rw [hr]; exact system_convert_keeps_bounds w sp p hres hty hc
      · rw [hr, (system_convert_frame w sp).2.1 p]; exact hty p
      · rw [hsy]; exact (system_convert_frame w sp).1 s
  refine ⟨wb, by simp only [system_run, ha, hb], ?_⟩
  rcases hwb with ⟨hr, hsy⟩ | ⟨hpos, hr, hsy⟩
  · refine ⟨fun p => ?_, fun p => ?_, fun s => ?_⟩
    · rw [hr]; exact hA.1 p
    · rw [hr]; exact hA.2.1 p
    · rw [hsy]; exact hA.2.2 s
  · refine ⟨fun p => ?_, fun p => ?_, fun s => ?_⟩
    · rw [hr]; exact system_store_resources_keeps_bounds wa sp p hA.1 hA.2.1 hpos
    · rw [hr, (system_store_resources_frame wa sp).2.1 p]; exact hA.2.1 p
    · rw [hsy, (system_store_resources_frame wa sp).1 s]; exact hA.2.2 s

theorem run_calls_step (d : Defs) (sps : List Nat) (w : World)
    (hres : resources_in_bounds w) (hty : capacities_are_int w)
    (hc : ∀ sp ∈ sps, (w.systems sp).consumed.amount ≥ 0) :
    ∃ w1 : World, run_calls d w sps = some w1 ∧ resources_in_bounds w1 := by
  induction sps generalizing w with
  | nil => exact ⟨w, rfl, hres⟩
  | cons sp rest ih =>
    obtain ⟨wa, ha, hra, hta, hca⟩ :=
      system_run_step d w sp hres hty (hc sp (List.mem_cons_self sp rest))
    obtain ⟨wb, hb, hrb⟩ := ih wa hra hta (fun s hs => by
      rw [hca s]; exact hc s (List.mem_cons_of_mem sp hs))
    exact ⟨wb, by simp only [run_calls, ha, hb], hrb⟩

/-- C9: if every resource satisfies `0 <= amount <= max_capacity` (with
`max_capacity` an `int`) and the system's `consumed.amount` is non-negative,
then a call of `system_run` returns and every resource still satisfies
`0 <= amount <= max_capacity`; the same holds after any sequence of calls, one
at a time, for any systems of the heap whose `consumed.amount` is
non-negative.  (Nothing is needed of `produced.amount` or `amount_stored`.) -/
theorem system_run_keeps_bounds (d : Defs) (w : World)
    (hres : resources_in_bounds w) (hty : capacities_are_int w) :
    (∀ sp : Nat, (w.systems sp).consumed.amount ≥ 0 →
      ∃ w1 : World, system_run d w sp = some w1 ∧ resources_in_bounds w1) ∧
    (∀ sps : List Nat, (∀ sp ∈ sps, (w.systems sp).consumed.amount ≥ 0) →
      ∃ w1 : World, run_calls d w sps = some w1 ∧ resources_in_bounds w1) := by
  refine ⟨fun sp hc => ?_, fun sps hc => run_calls_step d sps w hres hty hc⟩
  obtain ⟨w1, h1, hr1, -, -⟩ := system_run_step d w sp hres hty hc
  exact ⟨w1, h1, hr1⟩

theorem scenario_in_bounds : resources_in_bounds scenario ∧ capacities_are_int scenario := by
  refine ⟨fun p => ?_, fun p => ?_⟩
  · match p with
    | 0 => decide
    | 1 => decide
    | 2 => decide
    | n + 3 => exact (by decide : (0 : Int) ≤ 0 ∧ (0 : Int) ≤ 5000)
  · match p with
    | 0 => decide
    | 1 => decide
    | 2 => decide
    | n + 3 => exact (by decide : IsInt 5000)

/-- Witness for C9: the `load_data` scenario starts within bounds and stays
within bounds over a round of calls for its four systems. -/
theorem system_run_keeps_bounds_witness :
    resources_in_bounds scenario ∧ capacities_are_int scenario ∧
    (∀ sp ∈ [0, 1, 2, 3], (scenario.systems sp).consumed.amount ≥ 0) ∧
    ∃ w1 : World, run_calls example_defs scenario [0, 1, 2, 3] = some w1 ∧
      resources_in_bounds w1 :=
  ⟨scenario_in_bounds.1, scenario_in_bounds.2, by decide,
    (system_run_keeps_bounds example_defs scenario scenario_in_bounds.1
      scenario_in_bounds.2).2 [0, 1, 2, 3] (by decide)⟩

/-! ### The thread loop and null arguments -/

/-- C11: when the status of the system is TERMINATE at a check at the top of
the loop of `system_thread`, the thread returns there without another call of
`system_run`: the heap it returns is the heap at the check, so no resource
amount and no `amount_stored` has changed and no event has been pushed.  (The
rest of the loop from any check is `system_thread` started on the heap at that
check.) -/
theorem system_thread_stops_on_terminate (d : Defs) (fuel : Nat) (w : World) (sp : Nat)
    (h : (w.systems sp).status = TERMINATE) :
    system_thread d fuel w sp = ThreadOutcome.returned w ∧
    ∃ w1 : World, system_thread d fuel w sp = ThreadOutcome.returned w1 ∧
      (∀ p : Nat, (w1.resources p).amount = (w.resources p).amount) ∧
      (∀ s : Nat, (w1.systems s).amount_stored = (w.systems s).amount_stored) ∧
      (∀ q : Nat, w1.queues q = w.queues q) := by
  have hret : system_thread d fuel w sp = ThreadOutcome.returned w := by
    cases fuel <;> simp [system_thread, h]
  exact ⟨hret, w, hret, fun _ => rfl, fun _ => rfl, fun _ => rfl⟩

/-- Witness for C11: with Crew set to TERMINATE its thread returns at once and
the Oxygen it would consume stays at 20. -/
theorem system_thread_stops_on_terminate_witness :
    ((with_status scenario 2 TERMINATE).systems 2).status = TERMINATE ∧
    ∃ w1 : World,
      system_thread example_defs 5 (with_status scenario 2 TERMINATE) 2
        = ThreadOutcome.returned w1 ∧
      (w1.resources 1).amount = 20 := by
  obtain ⟨-, w1, h1, hres, -, -⟩ :=
    system_thread_stops_on_terminate example_defs 5 (with_status scenario 2 TERMINATE) 2 rfl
  exact ⟨rfl, w1, h1, by rw [hres 1]; rfl⟩

/-- C12: null arguments make the queue operations and the allocating
constructors do nothing.  `event_queue_push` with a null queue or a null event
changes no queue; `event_queue_pop` with a null queue or a null event returns 0
and changes neither; `event_queue_init` and `event_queue_clean` with a null
queue do nothing; `resource_create` and `system_create` with a null output
pointer or a null name leave the heap and the output pointer as they were;
`resource_array_add` and `system_array_add` with a null array or a null element
leave the array as it was. -/
theorem null_arguments_are_ignored :
    (∀ event : Option Event, event_queue_push none event = none) ∧
    (∀ queue : Option EventQueue, event_queue_push queue none = queue) ∧
    (∀ (w : World) (event : Event), push_at w none event = w) ∧
    (∀ event : Option Event, event_queue_pop none event = (0, none, event)) ∧
    (∀ queue : Option EventQueue, event_queue_pop queue none = (0, queue, none)) ∧
    event_queue_init none = none ∧
    event_queue_clean none = none ∧
    (∀ (w : World) (name : Option String) (amount max_capacity : Int) (fresh : Nat),
      resource_create w none name amount max_capacity fresh = (w, none)) ∧
    (∀ (w : World) (resource : Option (Option Nat)) (amount max_capacity : Int) (fresh : Nat),
      resource_create w resource none amount max_capacity fresh = (w, resource)) ∧
    (∀ (w : World) (name : Option String) (consumed produced : ResourceAmount)
        (processing_time : Int) (event_queue : Option Nat) (fresh : Nat),
      system_create w none name consumed produced processing_time event_queue fresh
        = (w, none)) ∧
    (∀ (w : World) (system : Option (Option Nat)) (consumed produced : ResourceAmount)
        (processing_time : Int) (event_queue : Option Nat) (fresh : Nat),
      system_create w system none consumed produced processing_time event_queue fresh
        = (w, system)) ∧
    (∀ resource : Option Nat, resource_array_add none resource = some none) ∧
    (∀ array : Option ResourceArray, resource_array_add array none = some array) ∧
    (∀ system : Option Nat, system_array_add none system = some none) ∧
    (∀ array : Option SystemArray, system_array_add array none = some array) := by
  refine ⟨?_, ?_, ?_, ?_, ?_, rfl, rfl, ?_, ?_, ?_, ?_, ?_, ?_, ?_, ?_⟩
  · intro event; cases event <;> rfl
  · intro queue; cases queue <;> rfl
  · intro w event; rfl
  · intro event; cases event <;> rfl
  · intro queue; cases queue <;> rfl
  · intro w name amount max_capacity fresh; cases name <;> rfl
  · intro w resource amount max_capacity fresh; cases resource <;> rfl
  · intro w name consumed produced processing_time event_queue fresh; cases name <;> rfl
  · intro w system consumed produced processing_time event_queue fresh; cases system <;> rfl
  · intro resource; cases resource <;> rfl
  · intro array; cases array <;> rfl
  · intro system; cases system <;> rfl
  · intro array; cases array <;> rfl

/-! ### Where `event_queue_push` links the new node -/

theorem insert_node_split (l : List Event) (e : Event) :
    ∃ pre post : List Event,
      l = pre ++ post ∧ insert_node l e = pre ++ e :: post ∧
      (∀ x ∈ pre, x.priority ≥ e.priority) ∧
      (∀ x : Event, post.head? = some x → x.priority < e.priority) := by
  induction l with
  | nil => exact ⟨[], [], rfl, rfl, by simp, by simp⟩
  | cons n rest ih =>
    by_cases hn : n.priority ≥ e.priority
    · obtain ⟨pre, post, h1, h2, h3, h4⟩ := ih
      refine ⟨n :: pre, post, by rw [h1]; rfl, ?_, ?_, h4⟩
      · simp only [insert_node, hn, if_true, h2, List.cons_append]
      · intro x hx
        rcases List.mem_cons.mp hx with hxn | hxp
        · subst hxn; exact hn
        · exact h3 x hxp
    · refine ⟨[], n :: rest, rfl, ?_, by simp, ?_⟩
      · simp only [insert_node, hn, if_false, List.nil_append]
      · intro x hx
        simp only [List.head?_cons, Option.some.injEq] at hx
        subst hx
        omega

/-- C15: on a queue in non-increasing priority order, `event_queue_push` of an
event `e` leaves the list `pre ++ e :: post`, where `pre ++ post` is the old
list, every event of `pre` has priority at least that of `e`, and `post` is
empty or starts with the first event of the old list whose priority is below
that of `e` (every event of `post` is below it).  The stored event is `e`
itself, field for field, and the old events are all there, once each, in their
old order. -/
theorem event_queue_push_position (q : EventQueue) (e : Event) (h : sorted_desc q.head) :
    ∃ pre post : List Event,
      q.head = pre ++ post ∧
      event_queue_push (some q) (some e) = some { head := pre ++ e :: post } ∧
      (∀ x ∈ pre, x.priority ≥ e.priority) ∧
      (∀ x : Event, post.head? = some x → x.priority < e.priority) ∧
      (∀ x ∈ post, x.priority < e.priority) := by
  obtain ⟨pre, post, h1, h2, h3, h4⟩ := insert_node_split q.head e
  refine ⟨pre, post, h1, by simp only [event_queue_push, h2], h3, h4, ?_⟩
  rw [h1] at h
  have hpost : sorted_desc post := (List.pairwise_append.mp h).2.1
  cases post with
  | nil => simp
  | cons y rest =>
    have hy := h4 y rfl
    intro x hx
    rcases List.mem_cons.mp hx with hxy | hxr
    · subst hxy; exact hy
    · have := (List.pairwise_cons.mp hpost).1 x hxr
      omega

/-- Witness for C15: pushing a second event of priority 50 onto the queue
50, 20 splits it into a part of priority at least 50 and a part below 50 and
puts the new event between them. -/
theorem event_queue_push_position_witness :
    sorted_desc [tagged_event 50 1, tagged_event 20 2] ∧
    ∃ pre post : List Event,
      [tagged_event 50 1, tagged_event 20 2] = pre ++ post ∧
      event_queue_push (some { head := [tagged_event 50 1, tagged_event 20 2] })
          (some (tagged_event 50 3))
        = some { head := pre ++ tagged_event 50 3 :: post } ∧
      (∀ x ∈ pre, x.priority ≥ (tagged_event 50 3).priority) ∧
      (∀ x : Event, post.head? = some x → x.priority < (tagged_event 50 3).priority) ∧
      (∀ x ∈ post, x.priority < (tagged_event 50 3).priority) :=
  ⟨by decide,
    event_queue_push_position { head := [tagged_event 50 1, tagged_event 20 2] }
      (tagged_event 50 3) (by decide)⟩

/-! ### Null resources, both phases in one call -/

theorem system_convert_failure_has_resource (w : World) (sp : Nat)
    (h : (system_convert w sp).1 ≠ STATUS_OK) :
    ∃ cp : Nat, (w.systems sp).consumed.resource = some cp ∧
      (w.resources cp).amount < (w.systems sp).consumed.amount ∧
      system_convert w sp
        = (if (w.resources cp).amount = 0 then STATUS_EMPTY else STATUS_INSUFFICIENT, w) := by
  cases hc : (w.systems sp).consumed.resource with
  | none =>
    rw [system_convert_eq_of_none w sp hc] at h
    exact absurd rfl h
  | some cp =>
    by_cases hge : (w.systems sp).consumed.amount ≤ (w.resources cp).amount
    · rw [system_convert_eq_of_enough w sp cp hc hge] at h
      exact absurd rfl h
    · exact ⟨cp, rfl, by omega, system_convert_eq_of_short w sp cp hc (by omega)⟩

theorem system_store_resources_failure_has_resource (w : World) (sp : Nat)
    (h : (system_store_resources w sp).1 ≠ STATUS_OK) :
    ∃ pp : Nat, (w.systems sp).produced.resource = some pp ∧
      ((system_store_resources w sp).2.systems sp).produced.resource = some pp ∧
      ((system_store_resources w sp).2.systems sp).event_queue = (w.systems sp).event_queue ∧
      (system_store_resources w sp).2.queues = w.queues ∧
      (system_store_resources w sp).1 = STATUS_CAPACITY ∧
      (w.systems sp).amount_stored ≠ 0 ∧
      ¬ (w.systems sp).amount_stored
        ≤ wrapInt ((w.resources pp).max_capacity - (w.resources pp).amount) := by
  by_cases hidle : (w.systems sp).produced.resource = none ∨ (w.systems sp).amount_stored = 0
  · rw [system_store_resources_eq_of_idle w sp hidle] at h
    exact absurd rfl h
  · have h0 : (w.systems sp).amount_stored ≠ 0 := fun h => hidle (Or.inr h)
    cases hp : (w.systems sp).produced.resource with
    | none => exact absurd (Or.inl hp) hidle
    | some pp =>
      by_cases hfull : (w.systems sp).amount_stored
          ≤ wrapInt ((w.resources pp).max_capacity - (w.resources pp).amount)
      · rw [system_store_resources_eq_of_full w sp pp hp h0 hfull] at h
        exact absurd rfl h
      · by_cases hav : 0 < wrapInt ((w.resources pp).max_capacity - (w.resources pp).amount)
        · have heq := system_store_resources_eq_of_part w sp pp hp h0 hfull hav
          rw [heq] at h ⊢
          refine ⟨pp, rfl, by simp [hp], by simp, rfl, ?_, h0, hfull⟩
          by_cases hz : wrapInt ((w.systems sp).amount_stored
              - wrapInt ((w.resources pp).max_capacity - (w.resources pp).amount)) = 0
          · simp [hz] at h
          · simp [hz]
        · rw [system_store_resources_eq_of_stuck w sp pp hp h0 hfull hav]
          exact ⟨pp, rfl, hp, rfl, rfl, rfl, h0, hfull⟩

/-- C19: in every state (null or non-null consumed and produced resource, any
`amount_stored`) `system_run` completes without reading a field through a null
resource pointer: the first phase builds its event only after
`system_convert` failed, which needs a non-null `consumed.resource`, and the
second only after `system_store_resources` failed, which needs a non-null
`produced.resource`. -/
theorem system_run_reads_no_null_resource (d : Defs) (w : World) (sp : Nat) :
    (∃ w1 : World, system_run d w sp = some w1) ∧
    ((system_convert w sp).1 ≠ STATUS_OK →
      ((system_convert w sp).2.systems sp).consumed.resource ≠ none) ∧
    (∀ wa : World, (system_store_resources wa sp).1 ≠ STATUS_OK →
      ((system_store_resources wa sp).2.systems sp).produced.resource ≠ none) := by
  refine ⟨?_, ?_, ?_⟩
  · obtain ⟨wa, ha, -⟩ := system_run_convert_total d w sp
    obtain ⟨wb, hb, -⟩ := system_run_store_total d wa sp
    exact ⟨wb, by simp only [system_run, ha, hb]⟩
  · intro h
    obtain ⟨cp, hc, -, heq⟩ := system_convert_failure_has_resource w sp h
    rw [heq, hc]
    simp
  · intro wa h
    obtain ⟨pp, -, hp, -⟩ := system_store_resources_failure_has_resource wa sp h
    rw [hp]
    simp

/-- C17: with `amount_stored == 0`, distinct non-null consumed and produced
resources, enough of the consumed resource (`amount >= consumed.amount >= 0`),
`produced.amount > 0` and free space for it in the produced resource, one call
of `system_run` does both phases: the consumed resource drops by exactly
`consumed.amount`, the produced resource rises by exactly `produced.amount`,
`amount_stored` is 0 on return and no queue changes (no event is pushed).  The
fields are `int`s and `max_capacity - amount` does not overflow. -/
theorem system_run_both_phases (d : Defs) (w : World) (sp cp pp : Nat)
    (hs : (w.systems sp).amount_stored = 0)
    (hc : (w.systems sp).consumed.resource = some cp)
    (hp : (w.systems sp).produced.resource = some pp)
    (hne : cp ≠ pp)
    (hca : 0 ≤ (w.systems sp).consumed.amount)
    (hge : (w.systems sp).consumed.amount ≤ (w.resources cp).amount)
    (hpa : 0 < (w.systems sp).produced.amount)
    (hfree : (w.systems sp).produced.amount
      ≤ (w.resources pp).max_capacity - (w.resources pp).amount)
    (htc : IsInt (w.resources cp).amount)
    (htp : IsInt (w.resources pp).amount)
    (htm : IsInt (w.resources pp).max_capacity)
    (htd : IsInt ((w.resources pp).max_capacity - (w.resources pp).amount)) :
    ∃ w1 : World, system_run d w sp = some w1 ∧
      w1.resources cp
        = { w.resources cp with
            amount := (w.resources cp).amount - (w.systems sp).consumed.amount } ∧
      w1.resources pp
        = { w.resources pp with
            amount := (w.resources pp).amount + (w.systems sp).produced.amount } ∧
      (∀ p : Nat, p ≠ cp → p ≠ pp → w1.resources p = w.resources p) ∧
      (w1.systems sp).amount_stored = 0 ∧
      w1.queues = w.queues := by
  unfold IsInt at htc htp htm htd
  have hsub : wrapInt ((w.resources cp).amount - (w.systems sp).consumed.amount)
      = (w.resources cp).amount - (w.systems sp).consumed.amount :=
    wrapInt_of_isInt _ ⟨by omega, by omega⟩
  have hprod : wrapInt (0 + (w.systems sp).produced.amount)
      = (w.systems sp).produced.amount := by
    rw [Int.zero_add]
    exact wrapInt_of_isInt _ ⟨by omega, by omega⟩
  have hconv := system_convert_eq_of_enough w sp cp hc hge
  rw [hs, hsub, hprod] at hconv
  simp only [hp, ne_eq, reduceCtorEq, not_false_eq_true, if_true] at hconv
  have hA : system_run_convert d w sp = some (system_convert w sp).2 := by
    simp [system_run_convert, hs, hconv]
  have hsA : ((system_convert w sp).2.systems sp).amount_stored
      = (w.systems sp).produced.amount := by
    rw [hconv]; simp
  have hpA : ((system_convert w sp).2.systems sp).produced.resource = some pp := by
    rw [hconv]; simp [hp]
  have hrA : (system_convert w sp).2.resources pp = w.resources pp := by
    rw [hconv]; simp [Function.update_noteq (Ne.symm hne)]
  have hdiff : wrapInt (((system_convert w sp).2.resources pp).max_capacity
      - ((system_convert w sp).2.resources pp).amount)
      = (w.resources pp).max_capacity - (w.resources pp).amount := by
    rw [hrA]; exact wrapInt_of_isInt _ htd
  have hsum : wrapInt ((w.resources pp).amount + (w.systems sp).produced.amount)
      = (w.resources pp).amount + (w.systems sp).produced.amount :=
    wrapInt_of_isInt _ ⟨by omega, by omega⟩
  have hstore := system_store_resources_eq_of_full (system_convert w sp).2 sp pp hpA
    (by rw [hsA]; omega) (by rw [hsA, hdiff]; exact hfree)
  rw [hsA, hrA, hsum] at hstore
  have hB : system_run_store d (system_convert w sp).2 sp
      = some (system_store_resources (system_convert w sp).2 sp).2 := by
    simp [system_run_store, hsA, hpa, hstore]
  refine ⟨(system_store_resources (system_convert w sp).2 sp).2,
    by simp only [system_run, hA, hB], ?_, ?_, ?_, ?_, ?_⟩
  · rw [hstore]
    simp only [Function.update_noteq hne]
    rw [hconv]
    simp
  · rw [hstore]
    simp
  · intro p hpc hpp
    rw [hstore]
    simp only [Function.update_noteq hpp]
    rw [hconv]
    simp [Function.update_noteq hpc]
  · rw [hstore]
    simp
  · rw [hstore]
    simp only
    rw [hconv]

/-- Witness for C17: one call of `system_run` for Propulsion in the `load_data`
scenario takes Fuel from 1000 to 995 and Distance from 0 to 25, keeps nothing
stored and leaves the queue empty. -/
theorem system_run_both_phases_witness :
    (scenario.systems 0).amount_stored = 0 ∧
    (scenario.systems 0).consumed.resource = some 0 ∧
    (scenario.systems 0).produced.resource = some 3 ∧
    (scenario.systems 0).consumed.amount ≤ (scenario.resources 0).amount ∧
    (scenario.systems 0).produced.amount
      ≤ (scenario.resources 3).max_capacity - (scenario.resources 3).amount ∧
    ∃ w1 : World, system_run example_defs scenario 0 = some w1 ∧
      (w1.resources 0).amount = 995 ∧
      (w1.resources 3).amount = 25 ∧
      (w1.systems 0).amount_stored = 0 ∧
      w1.queues 0 = { head := [] } := by
  refine ⟨rfl, rfl, rfl, by decide, by decide, ?_⟩
  obtain ⟨w1, h1, hc, hp, -, hs, hq⟩ :=
    system_run_both_phases example_defs scenario 0 0 3 rfl rfl rfl (by decide) (by decide)
      (by decide) (by decide) (by decide) (by decide) (by decide) (by decide) (by decide)
  exact ⟨w1, h1, by rw [hc]; rfl, by rw [hp]; rfl, hs, by rw [hq]; rfl⟩

/-! ### `amount_stored` over the life of a system -/

theorem system_convert_systems (w : World) (sp : Nat) :
    (∀ x : Nat, x ≠ sp → (system_convert w sp).2.systems x = w.systems x) ∧
    ((system_convert w sp).2.systems sp).produced = (w.systems sp).produced ∧
    (((system_convert w sp).2.systems sp).amount_stored = (w.systems sp).amount_stored ∨
      ((system_convert w sp).2.systems sp).amount_stored = 0 ∨
      ((system_convert w sp).2.systems sp).amount_stored
        = wrapInt ((w.systems sp).amount_stored + (w.systems sp).produced.amount)) := by
  have hupd : ∀ (res : Nat → Resource) (v : Int),
      (∀ x : Nat, x ≠ sp →
        ({ w with resources := res,
                  systems := Function.update w.systems sp
                    { w.systems sp with amount_stored := v } } : World).systems x
          = w.systems x) := by
    intro res v x hx
    simp [Function.update_noteq hx]
  cases hc : (w.systems sp).consumed.resource with
  | none =>
    rw [system_convert_eq_of_none w sp hc]
    refine ⟨fun x hx => by simp [Function.update_noteq hx], by simp, ?_⟩
    by_cases hp : (w.systems sp).produced.resource = none
    · right; left; simp [hp]
    · right; right; simp [hp]
  | some cp =>
    by_cases hge : (w.systems sp).consumed.amount ≤ (w.resources cp).amount
    · rw [system_convert_eq_of_enough w sp cp hc hge]
      refine ⟨fun x hx => hupd _ _ x hx, by simp, ?_⟩
      by_cases hp : (w.systems sp).produced.resource = none
      · right; left; simp [hp]
      · right; right; simp [hp]
    · rw [system_convert_eq_of_short w sp cp hc (by omega)]
      exact ⟨fun _ _ => rfl, rfl, Or.inl rfl⟩

theorem system_store_resources_systems (w : World) (sp : Nat) :
    (∀ x : Nat, x ≠ sp → (system_store_resources w sp).2.systems x = w.systems x) ∧
    ((system_store_resources w sp).2.systems sp).produced = (w.systems sp).produced ∧
    (((system_store_resources w sp).2.systems sp).amount_stored = 0 ∧
        (system_store_resources w sp).1 = STATUS_OK ∨
      (system_store_resources w sp).1 = STATUS_CAPACITY ∧
        (((system_store_resources w sp).2.systems sp).amount_stored
            = (w.systems sp).amount_stored ∨
          ∃ a : Int, 0 < a ∧ a < (w.systems sp).amount_stored ∧ IsInt a ∧
            ((system_store_resources w sp).2.systems sp).amount_stored
              = wrapInt ((w.systems sp).amount_stored - a))) := by
  by_cases hidle : (w.systems sp).produced.resource = none ∨ (w.systems sp).amount_stored = 0
  · rw [system_store_resources_eq_of_idle w sp hidle]
    exact ⟨fun x hx => by simp [Function.update_noteq hx], by simp, Or.inl ⟨by simp, rfl⟩⟩
  · have h0 : (w.systems sp).amount_stored ≠ 0 := fun h => hidle (Or.inr h)
    cases hp : (w.systems sp).produced.resource with
    | none => exact absurd (Or.inl hp) hidle
    | some pp =>
      by_cases hfull : (w.systems sp).amount_stored
          ≤ wrapInt ((w.resources pp).max_capacity - (w.resources pp).amount)
      · rw [system_store_resources_eq_of_full w sp pp hp h0 hfull]
        exact ⟨fun x hx => by simp [Function.update_noteq hx], by simp,
          Or.inl ⟨by simp, rfl⟩⟩
      · by_cases hav : 0 < wrapInt ((w.resources pp).max_capacity - (w.resources pp).amount)
        · rw [system_store_resources_eq_of_part w sp pp hp h0 hfull hav]
          refine ⟨fun x hx => by simp [Function.update_noteq hx], by simp, ?_⟩
          by_cases hz : wrapInt ((w.systems sp).amount_stored
              - wrapInt ((w.resources pp).max_capacity - (w.resources pp).amount)) = 0
          · left; simp [hz]
          · right
            refine ⟨by simp [hz], Or.inr ⟨_, hav, by omega, ?_, by simp⟩⟩
            unfold IsInt wrapInt
            omega
        · rw [system_store_resources_eq_of_stuck w sp pp hp h0 hfull hav]
          exact ⟨fun _ _ => rfl, rfl, Or.inr ⟨rfl, Or.inl rfl⟩⟩

theorem system_run_convert_cases (d : Defs) (w : World) (sp : Nat) :
    ((w.systems sp).amount_stored ≠ 0 ∧ system_run_convert d w sp = some w) ∨
    ((w.systems sp).amount_stored = 0 ∧ (system_convert w sp).1 = STATUS_OK ∧
      system_run_convert d w sp = some (system_convert w sp).2) ∨
    ((w.systems sp).amount_stored = 0 ∧ (system_convert w sp).1 ≠ STATUS_OK ∧
      ∃ cp : Nat, (w.systems sp).consumed.resource = some cp ∧
        (w.resources cp).amount < (w.systems sp).consumed.amount ∧
        system_run_convert d w sp
          = some (push_at w (w.systems sp).event_queue
              (event_init (some sp) (some cp)
                (if (w.resources cp).amount = 0 then STATUS_EMPTY else STATUS_INSUFFICIENT)
                d.PRIORITY_HIGH (w.resources cp).amount))) := by
  by_cases hs : (w.systems sp).amount_stored = 0
  · by_cases hok : (system_convert w sp).1 = STATUS_OK
    · exact Or.inr (Or.inl ⟨hs, hok, by simp [system_run_convert, hs, hok]⟩)
    · obtain ⟨cp, hc, hlt, heq⟩ := system_convert_failure_has_resource w sp hok
      refine Or.inr (Or.inr ⟨hs, hok, cp, hc, hlt, ?_⟩)
      have hne : (if (w.resources cp).amount = 0 then STATUS_EMPTY else STATUS_INSUFFICIENT)
          ≠ STATUS_OK := by
        split <;> simp
      simp only [system_run_convert, hs, if_true, heq, hne, ne_eq, not_false_eq_true, hc]
  · exact Or.inl ⟨hs, by simp [system_run_convert, hs]⟩

theorem system_run_store_cases (d : Defs) (w : World) (sp : Nat) :
    (¬ (w.systems sp).amount_stored > 0 ∧ system_run_store d w sp = some w) ∨
    ((w.systems sp).amount_stored > 0 ∧ (system_store_resources w sp).1 = STATUS_OK ∧
      system_run_store d w sp = some (system_store_resources w sp).2) ∨
    ((w.systems sp).amount_stored > 0 ∧ (system_store_resources w sp).1 = STATUS_CAPACITY ∧
      ∃ pp : Nat, (w.systems sp).produced.resource = some pp ∧
        system_run_store d w sp
          = some (push_at (system_store_resources w sp).2 (w.systems sp).event_queue
              (event_init (some sp) (some pp) STATUS_CAPACITY d.PRIORITY_LOW
                ((system_store_resources w sp).2.resources pp).amount))) := by
  by_cases hs : (w.systems sp).amount_stored > 0
  · by_cases hok : (system_store_resources w sp).1 = STATUS_OK
    · exact Or.inr (Or.inl ⟨hs, hok, by simp [system_run_store, hs, hok]⟩)
    · obtain ⟨pp, hp, hp2, hq2, -, hcap, -, -⟩ :=
        system_store_resources_failure_has_resource w sp hok
      refine Or.inr (Or.inr ⟨hs, hcap, pp, hp, ?_⟩)
      simp only [system_run_store, hs, if_true, ne_eq, hp2, hq2, hcap]
      simp
  · exact Or.inl ⟨hs, by simp [system_run_store, hs]⟩

theorem system_run_stored_step (d : Defs) (w : World) (sp : Nat)
    (hp0 : 0 ≤ (w.systems sp).produced.amount)
    (hpi : IsInt (w.systems sp).produced.amount)
    (hlo : 0 ≤ (w.systems sp).amount_stored)
    (hhi : (w.systems sp).amount_stored ≤ (w.systems sp).produced.amount) :
    ∃ wa w1 : World,
      system_run_convert d w sp = some wa ∧ system_run_store d wa sp = some w1 ∧
      system_run d w sp = some w1 ∧
      (w1.systems sp).produced = (w.systems sp).produced ∧
      0 ≤ (w1.systems sp).amount_stored ∧
      (w1.systems sp).amount_stored ≤ (w.systems sp).produced.amount ∧
      ((w1.systems sp).amount_stored ≠ 0 →
        (wa.systems sp).amount_stored > 0 ∧
        (system_store_resources wa sp).1 = STATUS_CAPACITY) := by
  have hA : ∃ wa : World, system_run_convert d w sp = some wa ∧
      (wa.systems sp).produced = (w.systems sp).produced ∧
      0 ≤ (wa.systems sp).amount_stored ∧
      (wa.systems sp).amount_stored ≤ (w.systems sp).produced.amount := by
    rcases system_run_convert_cases d w sp with ⟨-, h⟩ | ⟨hs, -, h⟩ | ⟨-, -, cp, -, -, h⟩
    · exact ⟨w, h, rfl, hlo, hhi⟩
    · refine ⟨_, h, (system_convert_systems w sp).2.1, ?_⟩
      rcases (system_convert_systems w sp).2.2 with h1 | h1 | h1
      · rw [h1]; exact ⟨hlo, hhi⟩
      · rw [h1]; exact ⟨le_refl _, hp0⟩
      · rw [h1, hs, Int.zero_add, wrapInt_of_isInt _ hpi]
        exact ⟨hp0, le_refl _⟩
    · refine ⟨_, h, ?_, ?_⟩
      · rw [(push_at_frame _ _ _).2]
      · rw [(push_at_frame _ _ _).2]; exact ⟨hlo, hhi⟩
  obtain ⟨wa, ha, hpa, hloa, hhia⟩ := hA
  unfold IsInt at hpi
  have hB : ∃ w1 : World, system_run_store d wa sp = some w1 ∧
      (w1.systems sp).produced = (wa.systems sp).produced ∧
      0 ≤ (w1.systems sp).amount_stored ∧
      (w1.systems sp).amount_stored ≤ (w.systems sp).produced.amount ∧
      ((w1.systems sp).amount_stored ≠ 0 →
        (wa.systems sp).amount_stored > 0 ∧
        (system_store_resources wa sp).1 = STATUS_CAPACITY) := by
    have hst := (system_store_resources_systems wa sp).2
    rcases system_run_store_cases d wa sp with ⟨hs, h⟩ | ⟨hs, hok, h⟩ | ⟨hs, hcap, pp, -, h⟩
    · refine ⟨wa, h, rfl, hloa, hhia, ?_⟩
      intro hne
      omega
    · refine ⟨_, h, hst.1, ?_⟩
      rcases hst.2 with ⟨h0, -⟩ | ⟨hc, -⟩
      · rw [h0]
        exact ⟨le_refl _, by omega, fun hne => absurd rfl hne⟩
      · rw [hok] at hc
        cases hc
    · refine ⟨_, h, ?_, ?_⟩
      · rw [(push_at_frame _ _ _).2]; exact hst.1
      · rw [(push_at_frame _ _ _).2]
        rcases hst.2 with ⟨h0, -⟩ | ⟨-, h1 | ⟨a, ha0, ha1, hai, h1⟩⟩
        · rw [h0]
          exact ⟨le_refl _, by omega, fun hne => absurd rfl hne⟩
        · rw [h1]
          exact ⟨hloa, hhia, fun _ => ⟨hs, hcap⟩⟩
        · rw [h1]
          unfold IsInt at hai
          have hw : wrapInt ((wa.systems sp).amount_stored - a)
              = (wa.systems sp).amount_stored - a :=
            wrapInt_of_isInt _ ⟨by omega, by omega⟩
          rw [hw]
          exact ⟨by omega, by omega, fun _ => ⟨hs, hcap⟩⟩
  obtain ⟨w1, hb, hpb, hlob, hhib, hnz⟩ := hB
  exact ⟨wa, w1, ha, hb, by simp only [system_run, ha, hb], by rw [hpb, hpa], hlob, hhib, hnz⟩

theorem system_run_of_phases (d : Defs) (w wa wb : World) (sp : Nat)
    (ha : system_run_convert d w sp = some wa) (hb : system_run_store d wa sp = some wb) :
    system_run d w sp = some wb := by
  simp only [system_run, ha, hb]

theorem system_run_other_system (d : Defs) (w : World) (s sp : Nat) (h : sp ≠ s) :
    ∃ w1 : World, system_run d w s = some w1 ∧ w1.systems sp = w.systems sp := by
  have hA : ∃ wa : World, system_run_convert d w s = some wa ∧
      wa.systems sp = w.systems sp := by
    rcases system_run_convert_cases d w s with ⟨-, ha⟩ | ⟨-, -, ha⟩ | ⟨-, -, cp, -, -, ha⟩
    · exact ⟨w, ha, rfl⟩
    · exact ⟨_, ha, (system_convert_systems w s).1 sp h⟩
    · exact ⟨_, ha, by rw [(push_at_frame _ _ _).2]⟩
  obtain ⟨wa, ha, hsa⟩ := hA
  rcases system_run_store_cases d wa s with ⟨-, hb⟩ | ⟨-, -, hb⟩ | ⟨-, -, pp, -, hb⟩
  · exact ⟨wa, system_run_of_phases d w wa wa s ha hb, hsa⟩
  · refine ⟨_, system_run_of_phases d w wa _ s ha hb, ?_⟩
    rw [(system_store_resources_systems wa s).1 sp h, hsa]
  · refine ⟨_, system_run_of_phases d w wa _ s ha hb, ?_⟩
    rw [(push_at_frame _ _ _).2, (system_store_resources_systems wa s).1 sp h, hsa]

theorem run_calls_stored (d : Defs) (sps : List Nat) (w : World) (sp : Nat)
    (hp0 : 0 ≤ (w.systems sp).produced.amount)
    (hpi : IsInt (w.systems sp).produced.amount)
    (hlo : 0 ≤ (w.systems sp).amount_stored)
    (hhi : (w.systems sp).amount_stored ≤ (w.systems sp).produced.amount) :
    ∃ w1 : World, run_calls d w sps = some w1 ∧
      (w1.systems sp).produced = (w.systems sp).produced ∧
      0 ≤ (w1.systems sp).amount_stored ∧
      (w1.systems sp).amount_stored ≤ (w.systems sp).produced.amount := by
  induction sps generalizing w with
  | nil => exact ⟨w, rfl, rfl, hlo, hhi⟩
  | cons s rest ih =>
    by_cases hs : sp = s
    · subst hs
      obtain ⟨-, wb, -, -, hrun, hprod, hlob, hhib, -⟩ :=
        system_run_stored_step d w sp hp0 hpi hlo hhi
      obtain ⟨w1, h1, hp1, hlo1, hhi1⟩ := ih wb (by rw [hprod]; exact hp0)
        (by rw [hprod]; exact hpi) hlob (by rw [hprod]; exact hhib)
      exact ⟨w1, by simp only [run_calls, hrun, h1], by rw [hp1, hprod], hlo1,
        by rw [← hprod]; exact hhi1⟩
    · obtain ⟨wb, hrun, hsame⟩ := system_run_other_system d w s sp hs
      obtain ⟨w1, h1, hp1, hlo1, hhi1⟩ := ih wb (by rw [hsame]; exact hp0)
        (by rw [hsame]; exact hpi) (by rw [hsame]; exact hlo) (by rw [hsame]; exact hhi)
      exact ⟨w1, by simp only [run_calls, hrun, h1], by rw [hp1, hsame], hlo1,
        by rw [← hsame]; exact hhi1⟩

/-- C16: a system made by `system_create` (which sets `amount_stored = 0` and
`status = STANDARD`) with `produced.amount >= 0` has
`0 <= amount_stored <= produced.amount` after any sequence of `system_run`
calls (for it and for any other systems of the heap), and whenever one more
call for it leaves `amount_stored` non-zero, the store step of that call ran
and returned `STATUS_CAPACITY`.  `produced.amount` is an `int`. -/
theorem amount_stored_stays_in_range (d : Defs) (w0 : World) (slot : Option Nat)
    (name : String) (consumed produced : ResourceAmount) (processing_time : Int)
    (event_queue : Option Nat) (fresh : Nat) (sps : List Nat)
    (hp0 : 0 ≤ produced.amount) (hpi : IsInt produced.amount) :
    (((system_create w0 (some slot) (some name) consumed produced processing_time
        event_queue fresh).1.systems fresh).amount_stored = 0 ∧
      ((system_create w0 (some slot) (some name) consumed produced processing_time
        event_queue fresh).1.systems fresh).status = STANDARD) ∧
    ∃ w1 : World,
      run_calls d
        (system_create w0 (some slot) (some name) consumed produced processing_time
          event_queue fresh).1 sps = some w1 ∧
      0 ≤ (w1.systems fresh).amount_stored ∧
      (w1.systems fresh).amount_stored ≤ produced.amount ∧
      ∃ wa w2 : World,
        system_run_convert d w1 fresh = some wa ∧ system_run_store d wa fresh = some w2 ∧
        system_run d w1 fresh = some w2 ∧
        0 ≤ (w2.systems fresh).amount_stored ∧
        (w2.systems fresh).amount_stored ≤ produced.amount ∧
        ((w2.systems fresh).amount_stored ≠ 0 →
          (wa.systems fresh).amount_stored > 0 ∧
          (system_store_resources wa fresh).1 = STATUS_CAPACITY) := by
  have hsys : (system_create w0 (some slot) (some name) consumed produced processing_time
      event_queue fresh).1.systems fresh
      = { name := name, consumed := consumed, produced := produced,
          processing_time := processing_time, event_queue := event_queue,
          status := STANDARD, amount_stored := 0 } := by
    simp [system_create]
  refine ⟨by rw [hsys]; exact ⟨rfl, rfl⟩, ?_⟩
  obtain ⟨w1, h1, hp1, hlo1, hhi1⟩ := run_calls_stored d sps _ fresh
    (by rw [hsys]; exact hp0) (by rw [hsys]; exact hpi) (by rw [hsys])
    (by rw [hsys]; exact hp0)
  rw [hsys] at hp1 hhi1
  simp only at hp1 hhi1
  obtain ⟨wa, w2, ha, hb, hrun, -, hlo2, hhi2, hnz⟩ :=
    system_run_stored_step d w1 fresh (by rw [hp1]; exact hp0) (by rw [hp1]; exact hpi)
      hlo1 (by rw [hp1]; exact hhi1)
  rw [hp1] at hhi2
  exact ⟨w1, h1, hlo1, hhi1, wa, w2, ha, hb, hrun, hlo2, hhi2, hnz⟩

/-- Witness for C16: a Life Support system created next to Oxygen at 48 of 50
keeps `amount_stored` between 0 and its `produced.amount` of 4 over three
calls of `system_run`. -/
theorem amount_stored_stays_in_range_witness :
    (0 : Int) ≤ (resource_amount_init (some 1) 4).amount ∧
    IsInt (resource_amount_init (some 1) 4).amount ∧
    ∃ w1 : World,
      run_calls example_defs
        (system_create (with_amount scenario 1 48) (some none) (some "Life Support")
          (resource_amount_init (some 2) 7) (resource_amount_init (some 1) 4) 10 (some 0)
          1).1 [1, 1, 1] = some w1 ∧
      0 ≤ (w1.systems 1).amount_stored ∧
      (w1.systems 1).amount_stored ≤ (resource_amount_init (some 1) 4).amount := by
  refine ⟨by decide, by decide, ?_⟩
  obtain ⟨-, w1, h1, hlo, hhi, -⟩ :=
    amount_stored_stays_in_range example_defs (with_amount scenario 1 48) none
      "Life Support" (resource_amount_init (some 2) 7) (resource_amount_init (some 1) 4) 10
      (some 0) 1 [1, 1, 1] (by decide) (by decide)
  exact ⟨w1, h1, hlo, hhi⟩

/-! ### What a capacity event reports -/

theorem system_convert_queues (w : World) (sp : Nat) :
    (system_convert w sp).2.queues = w.queues ∧
    ((system_convert w sp).2.systems sp).event_queue = (w.systems sp).event_queue := by
  cases hc : (w.systems sp).consumed.resource with
  | none => rw [system_convert_eq_of_none w sp hc]; simp
  | some cp =>
    by_cases hge : (w.systems sp).consumed.amount ≤ (w.resources cp).amount
    · rw [system_convert_eq_of_enough w sp cp hc hge]; simp
    · rw [system_convert_eq_of_short w sp cp hc (by omega)]; simp

theorem system_store_resources_queues (w : World) (sp : Nat) :
    (system_store_resources w sp).2.queues = w.queues := by
  by_cases hidle : (w.systems sp).produced.resource = none ∨ (w.systems sp).amount_stored = 0
  · rw [system_store_resources_eq_of_idle w sp hidle]
  · have h0 : (w.systems sp).amount_stored ≠ 0 := fun h => hidle (Or.inr h)
    cases hp : (w.systems sp).produced.resource with
    | none => exact absurd (Or.inl hp) hidle
    | some pp =>
      by_cases hfull : (w.systems sp).amount_stored
          ≤ wrapInt ((w.resources pp).max_capacity - (w.resources pp).amount)
      · rw [system_store_resources_eq_of_full w sp pp hp h0 hfull]
      · by_cases hav : 0 < wrapInt ((w.resources pp).max_capacity - (w.resources pp).amount)
        · rw [system_store_resources_eq_of_part w sp pp hp h0 hfull hav]
        · rw [system_store_resources_eq_of_stuck w sp pp hp h0 hfull hav]

theorem push_at_queues_congr (w v : World) (queue : Option Nat) (event : Event)
    (h : w.queues = v.queues) :
    (push_at w queue event).queues = (push_at v queue event).queues := by
  cases queue with
  | none => exact h
  | some a => simp [push_at, event_queue_push, h]

theorem system_store_resources_capacity_amount (w : World) (sp pp : Nat)
    (hp : (w.systems sp).produced.resource = some pp)
    (hlo : 0 ≤ (w.resources pp).amount)
    (hhi : (w.resources pp).amount ≤ (w.resources pp).max_capacity)
    (htm : IsInt (w.resources pp).max_capacity)
    (hcap : (system_store_resources w sp).1 ≠ STATUS_OK) :
    ((system_store_resources w sp).2.resources pp).amount = (w.resources pp).max_capacity ∧
    ((system_store_resources w sp).2.resources pp).max_capacity
      = (w.resources pp).max_capacity := by
  obtain ⟨pp1, hp1, -, -, -, -, h0, hfull⟩ :=
    system_store_resources_failure_has_resource w sp hcap
  rw [hp] at hp1
  cases hp1
  unfold IsInt at htm
  by_cases hav : 0 < wrapInt ((w.resources pp).max_capacity - (w.resources pp).amount)
  · rw [system_store_resources_eq_of_part w sp pp hp h0 hfull hav]
    simp only [Function.update_same, and_true]
    unfold wrapInt
    omega
  · rw [system_store_resources_eq_of_stuck w sp pp hp h0 hfull hav]
    refine ⟨?_, rfl⟩
    unfold wrapInt at hav
    show (w.resources pp).amount = (w.resources pp).max_capacity
    omega

theorem system_convert_keeps_resource (w : World) (sp pp : Nat)
    (hlo : 0 ≤ (w.resources pp).amount)
    (hhi : (w.resources pp).amount ≤ (w.resources pp).max_capacity)
    (htm : IsInt (w.resources pp).max_capacity)
    (hcons : 0 ≤ (w.systems sp).consumed.amount ∨
      (w.systems sp).consumed.resource ≠ some pp) :
    0 ≤ ((system_convert w sp).2.resources pp).amount ∧
    ((system_convert w sp).2.resources pp).amount ≤ (w.resources pp).max_capacity ∧
    ((system_convert w sp).2.resources pp).max_capacity = (w.resources pp).max_capacity := by
  unfold IsInt at htm
  cases hc : (w.systems sp).consumed.resource with
  | none =>
    rw [system_convert_eq_of_none w sp hc]
    exact ⟨hlo, hhi, rfl⟩
  | some cp =>
    by_cases hge : (w.systems sp).consumed.amount ≤ (w.resources cp).amount
    · rw [system_convert_eq_of_enough w sp cp hc hge]
      by_cases hcp : cp = pp
      · subst hcp
        have hca : 0 ≤ (w.systems sp).consumed.amount := by
          rcases hcons with h | h
          · exact h
          · exact absurd hc h
        simp only [Function.update_same, and_true]
        unfold wrapInt
        omega
      · simp only [Function.update_noteq (Ne.symm hcp)]
        exact ⟨hlo, hhi, trivial⟩
    · rw [system_convert_eq_of_short w sp cp hc (by omega)]
      exact ⟨hlo, hhi, rfl⟩

theorem system_run_store_event (d : Defs) (w : World) (sp pp : Nat)
    (hp : (w.systems sp).produced.resource = some pp)
    (hlo : 0 ≤ (w.resources pp).amount)
    (hhi : (w.resources pp).amount ≤ (w.resources pp).max_capacity)
    (htm : IsInt (w.resources pp).max_capacity) :
    ∃ w1 : World, system_run_store d w sp = some w1 ∧
      (w1.queues = w.queues ∨
        (w1.queues
            = (push_at w (w.systems sp).event_queue
                (event_init (some sp) (some pp) STATUS_CAPACITY d.PRIORITY_LOW
                  (w.resources pp).max_capacity)).queues ∧
          (w1.resources pp).amount = (w.resources pp).max_capacity)) := by
  rcases system_run_store_cases d w sp with ⟨-, h⟩ | ⟨-, -, h⟩ | ⟨-, hcap, pp1, hp1, h⟩
  · exact ⟨w, h, Or.inl rfl⟩
  · exact ⟨_, h, Or.inl (system_store_resources_queues w sp)⟩
  · rw [hp] at hp1
    cases hp1
    have hne : (system_store_resources w sp).1 ≠ STATUS_OK := by rw [hcap]; simp
    have hamt := (system_store_resources_capacity_amount w sp pp hp hlo hhi htm hne).1
    rw [hamt] at h
    refine ⟨_, h, Or.inr ⟨?_, ?_⟩⟩
    · exact push_at_queues_congr _ _ _ _ (system_store_resources_queues w sp)
    · rw [(push_at_frame _ _ _).1]
      exact hamt

/-- C20 (as stated, refuted): Oxygen stands at 50 of 50, within bounds, and a
system produces 4 Oxygen while its `consumed` pairing names Oxygen too, with
amount -10.  One call of `system_run` first raises Oxygen to 60 and then pushes
a `STATUS_CAPACITY` event whose amount is 60, not the `max_capacity` of 50. -/
theorem capacity_event_above_capacity :
    (0 ≤ ((with_consumed (with_amount scenario 1 50) 1
            (resource_amount_init (some 1) (-10))).resources 1).amount ∧
      ((with_consumed (with_amount scenario 1 50) 1
            (resource_amount_init (some 1) (-10))).resources 1).amount
        ≤ ((with_consumed (with_amount scenario 1 50) 1
            (resource_amount_init (some 1) (-10))).resources 1).max_capacity) ∧
    (system_run example_defs
        (with_consumed (with_amount scenario 1 50) 1 (resource_amount_init (some 1) (-10)))
        1).map (fun w1 => (w1.queues 0, (w1.resources 1).max_capacity))
      = some ({ head := [{ system := some 1, resource := some 1, status := STATUS_CAPACITY,
                           priority := example_defs.PRIORITY_LOW, amount := 60 }] }, 50) := by
  decide

/-- C20 (amended): let the produced resource satisfy
`0 <= amount <= max_capacity` before a call of `system_run`, and let the call's
first phase not raise it: `consumed.amount` is non-negative or the consumed
resource is another resource.  Then the call pushes nothing, or one event that
is not a `STATUS_CAPACITY` event, or the `STATUS_CAPACITY` event of low
priority for the produced resource whose amount is that resource's
`max_capacity`, and the resource is then full.  `max_capacity` is an `int`. -/
theorem capacity_event_reports_full (d : Defs) (w : World) (sp pp : Nat)
    (hp : (w.systems sp).produced.resource = some pp)
    (hlo : 0 ≤ (w.resources pp).amount)
    (hhi : (w.resources pp).amount ≤ (w.resources pp).max_capacity)
    (htm : IsInt (w.resources pp).max_capacity)
    (hcons : 0 ≤ (w.systems sp).consumed.amount ∨
      (w.systems sp).consumed.resource ≠ some pp) :
    ∃ w1 : World, system_run d w sp = some w1 ∧
      (w1.queues = w.queues ∨
        (∃ e : Event, e.status ≠ STATUS_CAPACITY ∧
          w1.queues = (push_at w (w.systems sp).event_queue e).queues) ∨
        (w1.queues
            = (push_at w (w.systems sp).event_queue
                (event_init (some sp) (some pp) STATUS_CAPACITY d.PRIORITY_LOW
                  (w.resources pp).max_capacity)).queues ∧
          (w1.resources pp).amount = (w.resources pp).max_capacity)) := by
  rcases system_run_convert_cases d w sp with ⟨-, ha⟩ | ⟨-, -, ha⟩ | ⟨hs, -, cp, -, -, ha⟩
  · obtain ⟨w1, hb, hq⟩ := system_run_store_event d w sp pp hp hlo hhi htm
    refine ⟨w1, system_run_of_phases d w w w1 sp ha hb, ?_⟩
    rcases hq with hq | hq
    · exact Or.inl hq
    · exact Or.inr (Or.inr hq)
  · obtain ⟨hlo1, hhi1, hm1⟩ := system_convert_keeps_resource w sp pp hlo hhi htm hcons
    have hp1 : ((system_convert w sp).2.systems sp).produced.resource = some pp := by
      rw [(system_convert_systems w sp).2.1]; exact hp
    obtain ⟨w1, hb, hq⟩ := system_run_store_event d (system_convert w sp).2 sp pp hp1 hlo1
      (by rw [hm1]; exact hhi1) (by rw [hm1]; exact htm)
    refine ⟨w1, system_run_of_phases d w _ w1 sp ha hb, ?_⟩
    rw [hm1, (system_convert_queues w sp).1, (system_convert_queues w sp).2] at hq
    rcases hq with hq | ⟨hq, hfull⟩
    · exact Or.inl hq
    · refine Or.inr (Or.inr ⟨?_, hfull⟩)
      rw [hq]
      exact push_at_queues_congr _ _ _ _ (system_convert_queues w sp).1
  · have hskip : system_run_store d
        (push_at w (w.systems sp).event_queue
          (event_init (some sp) (some cp)
            (if (w.resources cp).amount = 0 then STATUS_EMPTY else STATUS_INSUFFICIENT)
            d.PRIORITY_HIGH (w.resources cp).amount)) sp
        = some (push_at w (w.systems sp).event_queue
            (event_init (some sp) (some cp)
              (if (w.resources cp).amount = 0 then STATUS_EMPTY else STATUS_INSUFFICIENT)
              d.PRIORITY_HIGH (w.resources cp).amount)) := by
      simp [system_run_store, (push_at_frame _ _ _).2, hs]
    refine ⟨_, system_run_of_phases d w _ _ sp ha hskip, Or.inr (Or.inl ⟨_, ?_, rfl⟩)⟩
    simp only [event_init]
    split <;> simp

/-- Witness for C20 (amended): Life Support holding 4 units with Oxygen at 50 of
50 satisfies the conditions, so its call of `system_run` pushes nothing, a
non-capacity event, or the capacity event with amount 50. -/
theorem capacity_event_reports_full_witness :
    ((with_stored (with_amount scenario 1 50) 1 4).systems 1).produced.resource = some 1 ∧
    0 ≤ ((with_stored (with_amount scenario 1 50) 1 4).resources 1).amount ∧
    ((with_stored (with_amount scenario 1 50) 1 4).resources 1).amount
      ≤ ((with_stored (with_amount scenario 1 50) 1 4).resources 1).max_capacity ∧
    0 ≤ ((with_stored (with_amount scenario 1 50) 1 4).systems 1).consumed.amount ∧
    ∃ w1 : World,
      system_run example_defs (with_stored (with_amount scenario 1 50) 1 4) 1 = some w1 ∧
      (w1.queues = (with_stored (with_amount scenario 1 50) 1 4).queues ∨
        (∃ e : Event, e.status ≠ STATUS_CAPACITY ∧
          w1.queues
            = (push_at (with_stored (with_amount scenario 1 50) 1 4)
                ((with_stored (with_amount scenario 1 50) 1 4).systems 1).event_queue
                e).queues) ∨
        (w1.queues
            = (push_at (with_stored (with_amount scenario 1 50) 1 4)
                ((with_stored (with_amount scenario 1 50) 1 4).systems 1).event_queue
                (event_init (some 1) (some 1) STATUS_CAPACITY example_defs.PRIORITY_LOW
                  ((with_stored (with_amount scenario 1 50) 1 4).resources 1).max_capacity)).queues ∧
          (w1.resources 1).amount
            = ((with_stored (with_amount scenario 1 50) 1 4).resources 1).max_capacity)) :=
  ⟨rfl, by decide, by decide, by decide,
    capacity_event_reports_full example_defs (with_stored (with_amount scenario 1 50) 1 4) 1 1
      rfl (by decide) (by decide) (by decide) (Or.inl (by decide))⟩

/-! ### Locks -/

theorem one_lock_at_a_time_append (a b : List Act) (held : Option Lock)
    (ha : one_lock_at_a_time held a = true) (hb : one_lock_at_a_time none b = true) :
    one_lock_at_a_time held (a ++ b) = true := by
  induction a generalizing held with
  | nil =>
    cases held with
    | none => exact hb
    | some h => simp [one_lock_at_a_time] at ha
  | cons act rest ih =>
    cases held with
    | none =>
      cases act with
      | sem_wait l =>
        simp only [List.cons_append, one_lock_at_a_time] at ha ⊢
        exact ih _ ha
      | sem_post l => simp [one_lock_at_a_time] at ha
      | usleep t =>
        simp only [List.cons_append, one_lock_at_a_time] at ha ⊢
        exact ih _ ha
    | some h =>
      cases act with
      | sem_wait l => simp [one_lock_at_a_time] at ha
      | sem_post l =>
        simp only [List.cons_append, one_lock_at_a_time, Bool.and_eq_true] at ha ⊢
        exact ⟨ha.1, ih _ ha.2⟩
      | usleep t => simp [one_lock_at_a_time] at ha

theorem event_queue_push_acts_ok (queue : Option Nat) (event : Option Event) :
    one_lock_at_a_time none (event_queue_push_acts queue event) = true := by
  cases queue <;> cases event <;> simp [event_queue_push_acts, one_lock_at_a_time]

theorem system_convert_acts_ok (w : World) (sp : Nat) :
    one_lock_at_a_time none (system_convert_acts w sp) = true := by
  unfold system_convert_acts
  apply one_lock_at_a_time_append
  · split <;> simp [one_lock_at_a_time]
  · split <;> simp [system_simulate_process_time_acts, one_lock_at_a_time]

theorem system_store_resources_acts_ok (w : World) (sp : Nat) :
    one_lock_at_a_time none (system_store_resources_acts w sp) = true := by
  unfold system_store_resources_acts
  split
  · rfl
  · split <;> simp [one_lock_at_a_time]

theorem system_run_convert_acts_ok (d : Defs) (w : World) (sp : Nat) :
    one_lock_at_a_time none (system_run_convert_acts d w sp) = true := by
  unfold system_run_convert_acts
  split
  · apply one_lock_at_a_time_append _ _ _ (system_convert_acts_ok w sp)
    split
    · split
      · rfl
      · exact one_lock_at_a_time_append _ _ _ (event_queue_push_acts_ok _ _) rfl
    · rfl
  · rfl

theorem system_run_store_acts_ok (d : Defs) (w : World) (sp : Nat) :
    one_lock_at_a_time none (system_run_store_acts d w sp) = true := by
  unfold system_run_store_acts
  split
  · apply one_lock_at_a_time_append _ _ _ (system_store_resources_acts_ok w sp)
    split
    · split
      · rfl
      · exact one_lock_at_a_time_append _ _ _ (event_queue_push_acts_ok _ _) rfl
    · rfl
  · rfl

/-- C13: on every path of `system_run` (through `system_convert`,
`system_store_resources` and `event_queue_push`) the sequence of `sem_wait`,
`sem_post` and `usleep` calls never holds more than one lock: every `sem_wait`
is made while no lock is held and is followed by the `sem_post` of the same
semaphore before any other `sem_wait`, every `usleep` is made while no lock is
held, and no lock is held on return.  The same holds for each phase and each
function on its own. -/
theorem system_run_holds_one_lock (d : Defs) (w : World) (sp : Nat) :
    one_lock_at_a_time none (system_run_acts d w sp) = true ∧
    one_lock_at_a_time none (system_convert_acts w sp) = true ∧
    one_lock_at_a_time none (system_store_resources_acts w sp) = true ∧
    (∀ (queue : Option Nat) (event : Option Event),
      one_lock_at_a_time none (event_queue_push_acts queue event) = true) := by
  refine ⟨?_, system_convert_acts_ok w sp, system_store_resources_acts_ok w sp,
    event_queue_push_acts_ok⟩
  unfold system_run_acts
  apply one_lock_at_a_time_append _ _ _ (system_run_convert_acts_ok d w sp)
  split
  · rfl
  · exact system_run_store_acts_ok d _ sp

theorem one_lock_at_a_time_rejects :
    one_lock_at_a_time none
        [Act.sem_wait (Lock.resource_mutex 0), Act.sem_wait (Lock.queue_mutex 0),
         Act.sem_post (Lock.queue_mutex 0), Act.sem_post (Lock.resource_mutex 0)] = false ∧
    one_lock_at_a_time none
        [Act.sem_wait (Lock.resource_mutex 0), Act.usleep 1000,
         Act.sem_post (Lock.resource_mutex 0)] = false ∧
    system_run_acts example_defs (with_amount scenario 0 3) 0
      = [Act.sem_wait (Lock.resource_mutex 0), Act.sem_post (Lock.resource_mutex 0),
         Act.sem_wait (Lock.queue_mutex 0), Act.sem_post (Lock.queue_mutex 0),
         Act.usleep 10000] := by
  decide

/-! ### The registries -/

theorem copy_loop_length (old : List (Option Nat)) (n : Nat) (new : List (Option Nat)) :
    (copy_loop old n new).length = new.length := by
  induction n with
  | zero => rfl
  | succ n ih => simp [copy_loop, ih]

theorem copy_loop_getElem? (old : List (Option Nat)) (n : Nat) (new : List (Option Nat))
    (i : Nat) :
    (copy_loop old n new)[i]?
      = if i < n then (if i < new.length then some (old.getD i none) else none)
        else new[i]? := by
  induction n with
  | zero => simp [copy_loop]
  | succ n ih =>
    simp only [copy_loop, List.getElem?_set, copy_loop_length, ih]
    by_cases h1 : n = i
    · subst h1
      simp
    · by_cases h2 : i < n
      · have h3 : i < n + 1 := by omega
        simp [h1, h2, h3]
      · have h3 : ¬ i < n + 1 := by omega
        simp [h1, h2, h3]

theorem copy_loop_take (old : List (Option Nat)) (n : Nat) (new : List (Option Nat))
    (ho : n ≤ old.length) (hn : n ≤ new.length) :
    (copy_loop old n new).take n = old.take n := by
  apply List.ext_getElem?
  intro i
  rw [List.getElem?_take, List.getElem?_take, copy_loop_getElem?]
  by_cases h : i < n
  · have h1 : i < new.length := by omega
    have h2 : i < old.length := by omega
    simp [h, h1, h2]
  · simp [h]

theorem take_succ_set (l : List (Option Nat)) (n : Nat) (x : Option Nat)
    (h : n < l.length) :
    (l.set n x).take (n + 1) = l.take n ++ [x] := by
  apply List.ext_getElem?
  intro i
  rw [List.getElem?_take, List.getElem?_set]
  by_cases h1 : i < n
  · have h2 : i < n + 1 := by omega
    have h3 : n ≠ i := by omega
    have h4 : i < (l.take n).length := by simp; omega
    rw [List.getElem?_append_left h4, List.getElem?_take]
    simp [h1, h2, h3]
  · by_cases h2 : i = n
    · subst h2
      have h4 : (l.take i).length ≤ i := by simp
      rw [List.getElem?_append_right h4]
      simp [h, Nat.min_eq_left (Nat.le_of_lt h)]
    · have h3 : ¬ i < n + 1 := by omega
      have h4 : (l.take n).length ≤ i := by simp; omega
      rw [List.getElem?_append_right h4]
      have h5 : (l.take n).length = n := by simp; omega
      have h6 : i - n ≠ 0 := by omega
      simp [h3, h5]
      omega

theorem resource_array_add_grow (a : ResourceArray) (r : Nat)
    (hg : a.size ≥ a.capacity) (hs : 0 ≤ a.size)
    (hw : wrapInt (a.capacity * 2) = a.capacity * 2)
    (h1 : a.size.toNat ≤ a.resources.length)
    (h2 : a.size.toNat < (a.capacity * 2).toNat) :
    resource_array_add (some a) (some r)
      = some (some
          { resources :=
              (copy_loop a.resources a.size.toNat
                (List.replicate (a.capacity * 2).toNat none)).set a.size.toNat (some r),
            size := wrapInt (a.size + 1), capacity := a.capacity * 2 }) := by
  have h3 : a.size.toNat ≤ (a.capacity * 2).toNat := Nat.le_of_lt h2
  simp only [resource_array_add, hg, if_true, hw, h1, h3, and_self, hs, copy_loop_length,
    List.length_replicate, h2]

theorem resource_array_add_room (a : ResourceArray) (r : Nat)
    (hg : ¬ a.size ≥ a.capacity) (hs : 0 ≤ a.size)
    (h1 : a.size.toNat < a.resources.length) :
    resource_array_add (some a) (some r)
      = some (some
          { resources := a.resources.set a.size.toNat (some r),
            size := wrapInt (a.size + 1), capacity := a.capacity }) := by
  simp only [resource_array_add, hg, if_false, hs, h1, and_self, if_true]

theorem resource_array_add_step (a : ResourceArray) (elements : List Nat) (r : Nat)
    (h : holds_resources a elements) (hn : elements.length < 1073741824) :
    ∃ a1 : ResourceArray,
      resource_array_add (some a) (some r) = some (some a1) ∧
      holds_resources a1 (elements ++ [r]) ∧
      a1.size = a.size + 1 ∧
      a1.capacity = (if a.size = a.capacity then a.capacity * 2 else a.capacity) := by
  obtain ⟨hsz, hlen, hc1, hle, hcmax, htake⟩ := h
  have hs : 0 ≤ a.size := by omega
  have hsn : a.size.toNat = elements.length := by omega
  have hw1 : wrapInt (a.size + 1) = a.size + 1 := wrapInt_of_isInt _ ⟨by omega, by omega⟩
  by_cases hg : a.size ≥ a.capacity
  · have hcap : a.capacity = a.size := by omega
    have hw : wrapInt (a.capacity * 2) = a.capacity * 2 :=
      wrapInt_of_isInt _ ⟨by omega, by omega⟩
    have h1 : a.size.toNat ≤ a.resources.length := by omega
    have h2 : a.size.toNat < (a.capacity * 2).toNat := by omega
    refine ⟨_, resource_array_add_grow a r hg hs hw h1 h2, ?_, ?_, ?_⟩
    · refine ⟨?_, ?_, ?_, ?_, ?_, ?_⟩
      · simp only [hw1, List.length_append, List.length_singleton]
        omega
      · simp only [List.length_set, copy_loop_length, List.length_replicate]
        omega
      · show 1 ≤ a.capacity * 2
        omega
      · simp only [hw1]
        omega
      · show a.capacity * 2 ≤ 2147483647
        omega
      · simp only [hsn, List.length_append, List.length_singleton, List.map_append,
          List.map_cons, List.map_nil]
        rw [take_succ_set _ _ _ (by simp [copy_loop_length]; omega),
          copy_loop_take _ _ _ (by omega) (by simp; omega), htake]
    · simp only [hw1]
    · simp [hcap]
  · have h1 : a.size.toNat < a.resources.length := by omega
    refine ⟨_, resource_array_add_room a r hg hs h1, ?_, ?_, ?_⟩
    · refine ⟨?_, ?_, hc1, ?_, hcmax, ?_⟩
      · simp only [hw1, List.length_append, List.length_singleton]
        omega
      · simp only [List.length_set]
        exact hlen
      · simp only [hw1]
        omega
      · simp only [hsn, List.length_append, List.length_singleton, List.map_append,
          List.map_cons, List.map_nil]
        rw [take_succ_set _ _ _ (by omega), htake]
    · simp only [hw1]
    · have hne : a.size ≠ a.capacity := by omega
      simp [hne]

theorem add_resources_holds (elements : List Nat) (a : ResourceArray) (before : List Nat)
    (h : holds_resources a before) (hn : (before ++ elements).length < 1073741824) :
    ∃ a1 : ResourceArray,
      add_resources (some a) elements = some (some a1) ∧
      holds_resources a1 (before ++ elements) := by
  induction elements generalizing a before with
  | nil => exact ⟨a, rfl, by simpa using h⟩
  | cons r rest ih =>
    simp only [List.length_append, List.length_cons] at hn
    obtain ⟨a1, h1, hh1, -, -⟩ := resource_array_add_step a before r h (by omega)
    obtain ⟨a2, h2, hh2⟩ := ih a1 (before ++ [r]) hh1
      (by simp only [List.length_append, List.length_cons, List.length_nil]; omega)
    refine ⟨a2, by simp only [add_resources, h1, h2], ?_⟩
    simpa using hh2

theorem system_array_add_as_resources (a : SystemArray) (s : Nat) :
    (system_array_add (some a) (some s)).map (Option.map SystemArray.as_resources)
      = resource_array_add (some a.as_resources) (some s) := by
  simp only [system_array_add, resource_array_add, SystemArray.as_resources]
  split_ifs <;> first | rfl | (dsimp only; split_ifs <;> rfl)

theorem add_systems_as_resources (elements : List Nat) (array : Option SystemArray) :
    (add_systems array elements).map (Option.map SystemArray.as_resources)
      = add_resources (array.map SystemArray.as_resources) elements := by
  induction elements generalizing array with
  | nil => rfl
  | cons s rest ih =>
    have hstep : (system_array_add array (some s)).map (Option.map SystemArray.as_resources)
        = resource_array_add (array.map SystemArray.as_resources) (some s) := by
      cases array with
      | none => rfl
      | some a => exact system_array_add_as_resources a s
    simp only [add_systems, add_resources]
    rw [← hstep]
    cases system_array_add array (some s) with
    | none => rfl
    | some array1 => exact ih array1

theorem resource_array_add_appends (a0 : ResourceArray) (elements : List Nat) (x : Nat)
    (hn : elements.length < 1073741824) :
    ∃ a a1 : ResourceArray,
      add_resources (resource_array_init (some a0)) elements = some (some a) ∧
      resource_array_add (some a) (some x) = some (some a1) ∧
      a.size = elements.length ∧ a.size ≤ a.capacity ∧
      a.resources.take elements.length = elements.map some ∧
      a1.size = a.size + 1 ∧
      a1.resources.take (elements.length + 1) = elements.map some ++ [some x] ∧
      a1.capacity = (if a.size = a.capacity then a.capacity * 2 else a.capacity) ∧
      a1.size ≤ a1.capacity := by
  have hinit : holds_resources { resources := [none], capacity := 1, size := 0 } [] := by
    refine ⟨rfl, rfl, ?_, ?_, ?_, rfl⟩ <;> decide
  obtain ⟨a, ha, hh⟩ := add_resources_holds elements _ [] hinit (by simpa using hn)
  simp only [List.nil_append] at hh
  obtain ⟨a1, h1, hh1, hsize, hcap⟩ := resource_array_add_step a elements x hh hn
  refine ⟨a, a1, ha, h1, hh.1, hh.2.2.2.1, hh.2.2.2.2.2, hsize, ?_, hcap, hh1.2.2.2.1⟩
  have := hh1.2.2.2.2.2
  simpa using this

/-- C18: let an array come from `resource_array_init` followed by adds of
non-null elements (fewer than 2^30, so that doubling the capacity does not
overflow `int`).  Then `resource_array_add` of one more non-null element puts
it at index `size`, keeps the earlier elements in their positions, raises
`size` by exactly 1, doubles `capacity` exactly when `size == capacity` held
before the call and leaves it unchanged otherwise, and `size <= capacity`
holds afterwards.  The same holds for `system_array_init` and
`system_array_add`. -/
theorem array_add_appends (elements : List Nat) (x : Nat)
    (hn : elements.length < 1073741824) :
    (∀ a0 : ResourceArray, ∃ a a1 : ResourceArray,
      add_resources (resource_array_init (some a0)) elements = some (some a) ∧
      resource_array_add (some a) (some x) = some (some a1) ∧
      a.size = elements.length ∧ a.size ≤ a.capacity ∧
      a.resources.take elements.length = elements.map some ∧
      a1.size = a.size + 1 ∧
      a1.resources.take (elements.length + 1) = elements.map some ++ [some x] ∧
      a1.capacity = (if a.size = a.capacity then a.capacity * 2 else a.capacity) ∧
      a1.size ≤ a1.capacity) ∧
    (∀ b0 : SystemArray, ∃ b b1 : SystemArray,
      add_systems (system_array_init (some b0)) elements = some (some b) ∧
      system_array_add (some b) (some x) = some (some b1) ∧
      b.size = elements.length ∧ b.size ≤ b.capacity ∧
      b.systems.take elements.length = elements.map some ∧
      b1.size = b.size + 1 ∧
      b1.systems.take (elements.length + 1) = elements.map some ++ [some x] ∧
      b1.capacity = (if b.size = b.capacity then b.capacity * 2 else b.capacity) ∧
      b1.size ≤ b1.capacity) := by
  refine ⟨fun a0 => resource_array_add_appends a0 elements x hn, fun b0 => ?_⟩
  obtain ⟨a, a1, ha, h1, h2, h3, h4, h5, h6, h7, h8⟩ :=
    resource_array_add_appends b0.as_resources elements x hn
  have hsim := add_systems_as_resources elements (system_array_init (some b0))
  have hinit : (system_array_init (some b0)).map SystemArray.as_resources
      = resource_array_init (some b0.as_resources) := rfl
  rw [hinit, ha] at hsim
  cases hb : add_systems (system_array_init (some b0)) elements with
  | none => rw [hb] at hsim; cases hsim
  | some ob =>
    cases ob with
    | none => rw [hb] at hsim; cases hsim
    | some b =>
      rw [hb] at hsim
      simp only [Option.map_some', Option.some.injEq] at hsim
      subst hsim
      have hsim1 := system_array_add_as_resources b x
      rw [h1] at hsim1
      cases hb1 : system_array_add (some b) (some x) with
      | none => rw [hb1] at hsim1; cases hsim1
      | some ob1 =>
        cases ob1 with
        | none => rw [hb1] at hsim1; cases hsim1
        | some b1 =>
          rw [hb1] at hsim1
          simp only [Option.map_some', Option.some.injEq] at hsim1
          subst hsim1
          exact ⟨b, b1, rfl, hb1, h2, h3, h4, h5, h6, h7, h8⟩

/-- Witness for C18: after `load_data` has added Fuel, Oxygen and Energy (at
addresses 0, 1, 2), adding Distance (address 3) to the resource array makes it
the fourth element and raises `size` by 1. -/
theorem array_add_appends_witness :
    [0, 1, 2].length < 1073741824 ∧
    ∃ a a1 : ResourceArray,
      add_resources (resource_array_init (some { resources := [], size := 0, capacity := 0 }))
        [0, 1, 2] = some (some a) ∧
      resource_array_add (some a) (some 3) = some (some a1) ∧
      a1.size = a.size + 1 ∧
      a1.resources.take 4 = [some 0, some 1, some 2, some 3] ∧
      a1.size ≤ a1.capacity := by
  refine ⟨by decide, ?_⟩
  obtain ⟨a, a1, h1, h2, -, -, -, h3, h4, -, h5⟩ :=
    (array_add_appends [0, 1, 2] 3 (by decide)).1 { resources := [], size := 0, capacity := 0 }
  exact ⟨a, a1, h1, h2, h3, h4, h5⟩

end RocketSim
